import Mathlib

/-!
# netrixframework/go-clientlibrary: the replica client runtime

A shallow embedding of the Go package `replicaclient` (files `util.go`,
`messages.go`, `timers.go`, `telemetry.go`, `client.go`, `handlers.go`,
`directive.go`) and theorems about it.

Conventions of the embedding.

* Every Go method that runs under a mutex is one atomic function on the state
  it guards; the mutex itself is not a field of the embedded record.
* A Go pointer that may be nil is an `Option`.
* A Go `error` is an `Option String`: `none` is `nil`, `some s` is an error
  whose text is `s`.
* Go's `int` is the 64-bit signed integer: the counter of util.go is an `Int`
  kept in the range from -2^63 to 2^63 - 1 by `wrapInt` at each increment.
  The size of the queue is the length of a slice held in memory and stays far
  below that range; it is an `Int` without a wrap.
* A value of type `interface{}` in a metadata map is an `InterfaceValue`: what
  `json.Marshal` makes of it.
* A run-time panic is an explicit result of the function that can raise it.
* `go f(x)` appends a record of the spawned task to a list kept in the state;
  the task's own steps are separate functions.
* Calls of the user-supplied `Logger` have no effect on the runtime and are
  left out.
-/

namespace Netrix

/-! ## util.go -/

/-- The type `Counter` of util.go: a counter behind a mutex. -/
structure Counter where
  counter : Int
deriving DecidableEq, Repr

/-- The function `NewCounter` of util.go. -/
def NewCounter : Counter :=
  { counter := 0 }

/-- The value a 64-bit signed integer takes for the mathematical result `x`
of an addition: the integer of the range from -2^63 to 2^63 - 1 that differs
from `x` by a multiple of 2^64. -/
def wrapInt (x : Int) : Int :=
  (x + 9223372036854775808) % 18446744073709551616 - 9223372036854775808

/-- The values of Go's `int`. -/
def Counter.InRange (id : Counter) : Prop :=
  -9223372036854775808 ≤ id.counter ∧ id.counter < 9223372036854775808

/-- The method `Counter.Next` of util.go: the value returned is the counter
before the increment, and the increment wraps. -/
def Counter.Next (id : Counter) : Int × Counter :=
  let cur := id.counter
  (cur, { id with counter := wrapInt (id.counter + 1) })

/-- The method `Counter.Reset` of util.go. -/
def Counter.Reset (id : Counter) : Counter :=
  { id with counter := 0 }

/-- The call `fmt.Sprintf("%s_%s_%d", from, to, n)` of `Counter.NextID`: the
verb `%s` copies a string and `%d` prints a signed integer in base ten. -/
def sprintfID (from_ to_ : String) (n : Int) : String :=
  from_ ++ "_" ++ to_ ++ "_" ++ toString n

/-- The method `Counter.NextID` of util.go. -/
def Counter.NextID (id : Counter) (from_ to_ : String) : String × Counter :=
  let r := id.Next
  (sprintfID from_ to_ r.1, r.2)

/-! ## The types of `github.com/netrixframework/netrix/types` used by the package -/

/-- The fields of `types.Message` that the package sets (messages.go, lines
149 to 156). -/
structure Message where
  Type_ : String
  From : String
  To : String
  ID : String
  Data : List UInt8
  Intercept : Bool
deriving DecidableEq, Repr

/-- A value of type `interface{}` held in a metadata map, as far as
`json.Marshal` tells values apart: a value it encodes, with its JSON text, or
a value it rejects (a channel, a function, a complex number), with the error
it returns. -/
inductive InterfaceValue where
  | encodable (json : String)
  | unsupported (err : String)
deriving DecidableEq, Repr

/-- The error `json.Marshal` returns for a map of type
`map[string]interface{}`, given as its list of entries: that of the first
value it rejects, if there is one. -/
def marshalMapErr : List (String × InterfaceValue) → Option String
  | [] => none
  | (_, .unsupported err) :: _ => some err
  | (_, .encodable _) :: rest => marshalMapErr rest

/-- The fields of `types.Replica` that the package sets (client.go, lines 162
to 167); the metadata map `Info` is the list of its entries. -/
structure Replica where
  ID : String
  Info : List (String × InterfaceValue)
  Addr : String
  Ready : Bool
deriving DecidableEq, Repr

/-! ## messages.go: the message queue -/

/-- The type `MessageQueue` of messages.go. An entry is a `*types.Message`,
which may be nil. -/
structure MessageQueue where
  messages : List (Option Message)
  size : Int
  block : Bool
deriving DecidableEq, Repr

/-- The function `NewMessageQueue` of messages.go. -/
def NewMessageQueue : MessageQueue :=
  { messages := [], size := 0, block := false }

/-- The method `MessageQueue.Pop` of messages.go. The result is an error when
`q.messages[0]` is evaluated on an empty slice, where Go panics. -/
def MessageQueue.Pop (q : MessageQueue) :
    Except String ((Option Message × Bool) × MessageQueue) :=
  if q.size < 1 then
    .ok ((none, false), q)
  else
    match q.messages with
    | [] => .error "index out of range [0] with length 0"
    | front :: rest =>
      .ok ((front, true), { q with size := q.size - 1, messages := rest })

/-- The method `MessageQueue.Add` of messages.go. -/
def MessageQueue.Add (q : MessageQueue) (m : Option Message) : MessageQueue :=
  if q.block then
    q
  else
    { q with messages := q.messages ++ [m], size := q.size + 1 }

/-- The method `MessageQueue.Flush` of messages.go. -/
def MessageQueue.Flush (q : MessageQueue) : MessageQueue :=
  { q with messages := [], size := 0 }

/-- The method `MessageQueue.Block` of messages.go. -/
def MessageQueue.Block (q : MessageQueue) : MessageQueue :=
  { q with block := true }

/-- The method `MessageQueue.UnBlock` of messages.go. -/
def MessageQueue.UnBlock (q : MessageQueue) : MessageQueue :=
  { q with block := false }

/-- The invariant every method of the queue keeps: `size` is the length of
`messages`. -/
def MessageQueue.WF (q : MessageQueue) : Prop :=
  q.size = q.messages.length

instance (q : MessageQueue) : Decidable q.WF := by
  unfold MessageQueue.WF; infer_instance

/-- A call of one method of the queue. -/
inductive QueueOp where
  | Add (m : Option Message)
  | Pop
  | Flush
  | Block
  | UnBlock
deriving DecidableEq, Repr

/-- The calls of a list are made one after the other; the result is the list
of values the `Pop` calls returned, in order, and the final queue. -/
def MessageQueue.run :
    MessageQueue → List QueueOp → Except String (List (Option Message × Bool) × MessageQueue)
  | q, [] => .ok ([], q)
  | q, .Add m :: ops => MessageQueue.run (q.Add m) ops
  | q, .Flush :: ops => MessageQueue.run q.Flush ops
  | q, .Block :: ops => MessageQueue.run q.Block ops
  | q, .UnBlock :: ops => MessageQueue.run q.UnBlock ops
  | q, .Pop :: ops =>
    match q.Pop with
    | .error e => .error e
    | .ok (r, q1) =>
      match MessageQueue.run q1 ops with
      | .error e => .error e
      | .ok (rs, q2) => .ok (r :: rs, q2)

/-- Whether a call is an `Add`. -/
def QueueOp.isAdd : QueueOp → Bool
  | .Add _ => true
  | _ => false

/-- The results of a list of `NextID` calls, each given by its two arguments,
made one after the other, and the counter afterwards. -/
def Counter.runNextID : Counter → List (String × String) → List String × Counter
  | id, [] => ([], id)
  | id, (from_, to_) :: calls =>
    let r := id.NextID from_ to_
    let rs := Counter.runNextID r.2 calls
    (r.1 :: rs.1, rs.2)

/-! ## timers.go: the timer registry -/

/-- The interface `TimeoutInfo` of timers.go: a value with a key and a
duration (a `time.Duration`, a number of nanoseconds). -/
structure TimeoutInfo where
  Key : String
  Duration : Int
deriving DecidableEq, Repr

/-- The type `timer` of timers.go. The map `timeouts` is its lookup function;
`outChan` holds the items buffered in the channel of capacity 10, oldest first;
`senders` lists the goroutines spawned by `FireTimeout` that have not yet
completed their send `t.outChan <- i`, each with its `i`. -/
structure timer where
  timeouts : String → Option TimeoutInfo
  outChan : List TimeoutInfo
  senders : List TimeoutInfo

/-- The function `newTimer` of timers.go. -/
def newTimer : timer :=
  { timeouts := fun _ => none, outChan := [], senders := [] }

/-- The method `timer.AddTimeout` of timers.go. -/
def timer.AddTimeout (t : timer) (info : TimeoutInfo) : Bool × timer :=
  let key := info.Key
  match t.timeouts key with
  | none =>
    (true, { t with timeouts := fun k => if k = key then some info else t.timeouts k })
  | some _ => (false, t)

/-- The statement `delete(t.timeouts, key)` under the lock: the second
critical section of `timer.FireTimeout` (timers.go, lines 55 to 57). -/
def timer.delete (t : timer) (key : String) : timer :=
  { t with timeouts := fun k => if k = key then none else t.timeouts k }

/-- The statement `go func(i TimeoutInfo) { t.outChan <- i }(info)` of
`timer.FireTimeout` (timers.go, line 58). -/
def timer.spawnSend (t : timer) (i : TimeoutInfo) : timer :=
  { t with senders := t.senders ++ [i] }

/-- The method `timer.FireTimeout` of timers.go, run without interference:
the lookup under the lock (lines 51 to 53), then, when the key was found, the
deletion under the lock and the spawned send. -/
def timer.FireTimeout (t : timer) (key : String) : timer :=
  match t.timeouts key with
  | some info => (t.delete key).spawnSend info
  | none => t

/-- The goroutine number `n` of `senders` runs its send `t.outChan <- i`: the
send completes when the channel holds fewer than 10 items and stays blocked
otherwise. -/
def timer.send (t : timer) (n : Nat) : timer :=
  match t.senders.get? n with
  | some i =>
    if t.outChan.length < 10 then
      { t with outChan := t.outChan ++ [i], senders := t.senders.eraseIdx n }
    else t
  | none => t

/-- A receive `<-c.TimeoutChan()` that does not block: the oldest buffered
item, if any. -/
def timer.recv (t : timer) : Option TimeoutInfo × timer :=
  match t.outChan with
  | [] => (none, t)
  | i :: rest => (some i, { t with outChan := rest })

/-- A call of one method of the registry. -/
inductive TimerOp where
  | AddTimeout (info : TimeoutInfo)
  | FireTimeout (key : String)
deriving DecidableEq, Repr

/-- The calls of a list are made one after the other. -/
def timer.run : timer → List TimerOp → timer
  | t, [] => t
  | t, .AddTimeout info :: ops => timer.run (t.AddTimeout info).2 ops
  | t, .FireTimeout key :: ops => timer.run (t.FireTimeout key) ops

/-- The type `timeout` of timers.go, the body of a request on `/timeout`. -/
structure timeout where
  Type_ : String
  Duration : String
  Replica : String
deriving DecidableEq, Repr

/-! ## telemetry.go, log.go, directive.go: the records sent and received -/

/-- The variable `MessageSendEventType` of telemetry.go. -/
def MessageSendEventType : String := "MessageSend"

/-- The variable `MessageReceiveEventType` of telemetry.go. -/
def MessageReceiveEventType : String := "MessageReceive"

/-- The variable `TimeoutStartEventType` of telemetry.go. -/
def TimeoutStartEventType : String := "TimeoutStart"

/-- The variable `TimeoutEndEventType` of telemetry.go. -/
def TimeoutEndEventType : String := "TimeoutEnd"

/-- The type `event` of telemetry.go. -/
structure event where
  Type_ : String
  Replica : String
  Params : List (String × String)
  Timestamp : Int
deriving DecidableEq, Repr

/-- The type `log` of log.go. -/
structure log where
  Replica : String
  Message : String
  Params : List (String × InterfaceValue)
  Timestamp : Int
deriving DecidableEq, Repr

/-- The constant `startAction` of directive.go. -/
def startAction : String := "START"

/-- The constant `stopAction` of directive.go. -/
def stopAction : String := "STOP"

/-- The constant `restartAction` of directive.go. -/
def restartAction : String := "RESTART"

/-- The constant `isReadyAction` of directive.go. -/
def isReadyAction : String := "ISREADY"

/-- The type `directiveMessage` of directive.go. -/
structure directiveMessage where
  Action : String
deriving DecidableEq, Repr

/-- The type `masterRequest` of messages.go. -/
structure masterRequest where
  Type_ : String
  Replica : Option Replica := none
  Message : Option Message := none
  Event : Option event := none
  Log : Option log := none
deriving DecidableEq, Repr

/-- The value handed to `json.Marshal` by `sendMasterMessage`; `Empty` is the
nil byte slice of a request type that no case of the switch matches. -/
inductive Body where
  | Event (e : Option event)
  | Replica (r : Option Replica)
  | Message (m : Option Message)
  | Log (l : Option log)
  | Empty
deriving DecidableEq, Repr

/-- The error `json.Marshal` returns in `sendMasterMessage`. A nil pointer
encodes as `null`; an event and a message hold strings, bytes, booleans and
integers only and always encode; a replica record and a log record encode
when their map of `interface{}` values does. -/
def marshalErr : Body → Option String
  | .Replica (some r) => marshalMapErr r.Info
  | .Log (some l) => marshalMapErr l.Params
  | _ => none

/-- A POST request handed to `c.masterClient.Do`. -/
structure Request where
  addr : String
  body : Body
deriving DecidableEq, Repr

/-- The reply written by a handler of handlers.go. -/
structure Response where
  status : Nat
  body : String
deriving DecidableEq, Repr

/-- What the package takes from outside during one call: the controller's
answer to a request (`Do`: a transport error, or the status code), the check
of the address by `http.NewRequest`, the clock, the results of the embedding
node's `DirectiveHandler`, the error, if any, that `ListenAndServe` puts on
`errCh` within the second `Start` waits, the result of `server.Shutdown`, and
the method `String` of `time.Duration`. -/
structure Env where
  Do : Request → Except String Nat
  NewRequest : String → Option String
  now : Int
  handlerStart : Option String
  handlerStop : Option String
  handlerRestart : Option String
  listenErr : Option String
  shutdownErr : Option String
  DurationString : Int → String

/-! ## client.go: configuration and the runtime -/

/-- The variable `ErrNoReplicaID` of client.go. -/
def ErrNoReplicaID : String := "replica ID config should not be empty"

/-- The variable `ErrNoClientServerAddr` of client.go. -/
def ErrNoClientServerAddr : String := "client server address should not be empty"

/-- The variable `ErrNoNetrixAddr` of client.go. -/
def ErrNoNetrixAddr : String := "netrix addr should not be empty"

/-- The type `Config` of client.go. -/
structure Config where
  ReplicaID : String
  NetrixAddr : String
  ClientServerAddr : String
  ClientAdvAddr : String
  Info : List (String × InterfaceValue)
deriving DecidableEq, Repr

/-- The function `validateConfig` of client.go: the error returned and the
config the pointer refers to afterwards. -/
def validateConfig (c : Config) : Option String × Config :=
  if c.ReplicaID = "" then (some ErrNoReplicaID, c)
  else if c.NetrixAddr = "" then (some ErrNoNetrixAddr, c)
  else if c.ClientServerAddr = "" then (some ErrNoClientServerAddr, c)
  else if c.ClientAdvAddr = "" then
    (none, { c with ClientAdvAddr := c.ClientServerAddr })
  else (none, c)

/-- A task started by a `go` statement of the runtime. -/
inductive Goroutine where
  | sendMasterMessage (msg : masterRequest)
  | PublishEvent (t : String) (params : List (String × String))
  | Log (params : List (String × InterfaceValue)) (message : String)
  | ListenAndServe
deriving DecidableEq, Repr

/-- An invocation of an operation of the interface `DirectiveHandler` of
directive.go, with the value of the readiness flag at the time of the
invocation (what the handler reads if it calls `IsReady()`). -/
inductive HandlerCall where
  | Stop (ready : Bool)
  | Start (ready : Bool)
  | Restart (ready : Bool)
deriving DecidableEq, Repr

/-- The type `ReplicaClient` of client.go. `stopCh` is true when the channel
has been closed (nothing is ever sent on it); `masterClient` is the list of
the requests handed to `c.masterClient.Do`, oldest first; `goroutines` lists
the tasks the runtime has spawned and that have not run yet; `handlerCalls`
lists the operations of `directiveHandler` invoked so far, oldest first. The
results of the handler, the logger and the listener are outside (see `Env`). -/
structure ReplicaClient where
  config : Config
  messageQ : MessageQueue
  started : Bool
  stopCh : Bool
  timer : timer
  ready : Bool
  masterClient : List Request
  counter : Counter
  goroutines : List Goroutine
  handlerCalls : List HandlerCall

/-- The struct literal of `NewReplicaClient` (client.go, lines 107 to 126):
the runtime built from a config that passed `validateConfig`. -/
def ReplicaClient.new (config : Config) : ReplicaClient :=
  { config := config
    messageQ := NewMessageQueue
    started := false
    stopCh := false
    timer := newTimer
    ready := false
    masterClient := []
    counter := NewCounter
    goroutines := []
    handlerCalls := [] }

/-- The function `NewReplicaClient` of client.go: the runtime, or the error of
`validateConfig`, and the config afterwards. -/
def NewReplicaClient (config : Config) : Except String ReplicaClient × Config :=
  match validateConfig config with
  | (some err, config1) => (.error err, config1)
  | (none, config1) => (.ok (ReplicaClient.new config1), config1)

/-- The method `ReplicaClient.IsRunning` of client.go. -/
def ReplicaClient.IsRunning (c : ReplicaClient) : Bool :=
  c.started

/-- The method `ReplicaClient.IsReady` of client.go. -/
def ReplicaClient.IsReady (c : ReplicaClient) : Bool :=
  c.ready

/-- The switch of `sendMasterMessage` (messages.go, lines 93 to 112): the
value marshalled and the route. -/
def marshalRoute (msg : masterRequest) : Body × String :=
  if msg.Type_ = "Event" then (.Event msg.Event, "/event")
  else if msg.Type_ = "RegisterReplica" then (.Replica msg.Replica, "/replica")
  else if msg.Type_ = "InterceptedMessage" then (.Message msg.Message, "/message")
  else if msg.Type_ = "StateUpdate" then (.Event msg.Event, "/state")
  else if msg.Type_ = "Log" then (.Log msg.Log, "/log")
  else (.Empty, "")

/-- The method `ReplicaClient.sendMasterMessage` of messages.go: it returns
the error of `json.Marshal` or of `http.NewRequest` before any request is
made. -/
def ReplicaClient.sendMasterMessage (env : Env) (c : ReplicaClient) (msg : masterRequest) :
    Option String × ReplicaClient :=
  let br := marshalRoute msg
  match marshalErr br.1 with
  | some err => (some err, c)
  | none =>
    let addr := "http://" ++ c.config.NetrixAddr ++ br.2
    match env.NewRequest addr with
    | some err => (some err, c)
    | none =>
      let req : Request := { addr := addr, body := br.1 }
      let c1 := { c with masterClient := c.masterClient ++ [req] }
      match env.Do req with
      | .error err => (some err, c1)
      | .ok status =>
        if status ≠ 200 then (some "response was not ok\t", c1)
        else (none, c1)

/-- The method `ReplicaClient.PublishEvent` of telemetry.go. -/
def ReplicaClient.PublishEvent (env : Env) (c : ReplicaClient) (t : String)
    (params : List (String × String)) : ReplicaClient :=
  (c.sendMasterMessage env
    { Type_ := "Event"
      Event := some
        { Type_ := t, Replica := c.config.ReplicaID, Params := params, Timestamp := env.now } }).2

/-- The method `ReplicaClient.PublishEventAsync` of telemetry.go. -/
def ReplicaClient.PublishEventAsync (c : ReplicaClient) (t : String)
    (params : List (String × String)) : ReplicaClient :=
  { c with goroutines := c.goroutines ++ [.PublishEvent t params] }

/-- The method `ReplicaClient.Log` of log.go. -/
def ReplicaClient.Log (env : Env) (c : ReplicaClient)
    (params : List (String × InterfaceValue))
    (message : String) : ReplicaClient :=
  (c.sendMasterMessage env
    { Type_ := "Log"
      Log := some
        { Replica := c.config.ReplicaID, Params := params, Message := message,
          Timestamp := env.now } }).2

/-- The method `ReplicaClient.LogAsync` of log.go. -/
def ReplicaClient.LogAsync (c : ReplicaClient) (params : List (String × InterfaceValue))
    (message : String) : ReplicaClient :=
  { c with goroutines := c.goroutines ++ [.Log params message] }

/-- The registration record built by `Ready`, `NotReady` and `Start`. -/
def ReplicaClient.registration (c : ReplicaClient) (ready : Bool) : masterRequest :=
  { Type_ := "RegisterReplica"
    Replica := some
      { ID := c.config.ReplicaID, Info := c.config.Info, Addr := c.config.ClientAdvAddr,
        Ready := ready } }

/-- The method `ReplicaClient.Ready` of client.go. -/
def ReplicaClient.Ready (c : ReplicaClient) : ReplicaClient :=
  let c1 := { c with ready := true }
  { c1 with goroutines := c1.goroutines ++ [.sendMasterMessage (c1.registration true)] }

/-- The method `ReplicaClient.NotReady` of client.go. -/
def ReplicaClient.NotReady (c : ReplicaClient) : ReplicaClient :=
  let c1 := { c with ready := false }
  { c1 with goroutines := c1.goroutines ++ [.sendMasterMessage (c1.registration false)] }

/-- The method `ReplicaClient.unsetReady` of client.go. -/
def ReplicaClient.unsetReady (c : ReplicaClient) : ReplicaClient :=
  { c with ready := false }

/-- The method `ReplicaClient.Start` of client.go: the error returned and the
runtime afterwards. The error of the registration is only logged. -/
def ReplicaClient.Start (env : Env) (c : ReplicaClient) : Option String × ReplicaClient :=
  if c.IsRunning then (none, c)
  else
    let c1 := (c.sendMasterMessage env (c.registration false)).2
    let c2 := { c1 with goroutines := c1.goroutines ++ [.ListenAndServe] }
    match env.listenErr with
    | some e => (some e, c2)
    | none => (none, { c2 with started := true })

/-- The result of a call that may panic: the value returned, or the panic,
each with the runtime as the call leaves it. -/
inductive Outcome (α : Type) where
  | ret (c : ReplicaClient) (a : α)
  | panic (c : ReplicaClient) (msg : String)

/-- The runtime as a call leaves it. -/
def Outcome.state {α : Type} : Outcome α → ReplicaClient
  | .ret c _ => c
  | .panic c _ => c

/-- Whether the call panicked. -/
def Outcome.panicked {α : Type} : Outcome α → Bool
  | .ret _ _ => false
  | .panic _ _ => true

/-- The method `ReplicaClient.Stop` of client.go. Closing a closed channel
panics in Go. -/
def ReplicaClient.Stop (env : Env) (c : ReplicaClient) : Outcome (Option String) :=
  if !c.IsRunning then .ret c none
  else if c.stopCh then .panic c "close of closed channel"
  else
    let c1 := { c with stopCh := true }
    let c2 := { c1 with started := false }
    match env.shutdownErr with
    | some err => .ret c2 (some err)
    | none => .ret c2 none

/-! ## messages.go: sending and receiving -/

/-- The method `ReplicaClient.SendMessage` of messages.go: the error returned
and the runtime afterwards. The `select` takes its first case exactly when
`stopCh` is closed. -/
def ReplicaClient.SendMessage (env : Env) (c : ReplicaClient) (t to_ : String)
    (msg : List UInt8) (intercept : Bool) : Option String × ReplicaClient :=
  if c.stopCh then (some "controller stopped. EOF", c)
  else if !c.IsReady then (none, c)
  else
    let from_ := c.config.ReplicaID
    let idc := c.counter.NextID from_ to_
    let c1 := { c with counter := idc.2 }
    let message : Message :=
      { Type_ := t, From := from_, To := to_, ID := idc.1, Data := msg, Intercept := intercept }
    match c1.sendMasterMessage env { Type_ := "InterceptedMessage", Message := some message } with
    | (some err, c2) => (some err, c2)
    | (none, c2) =>
      (none, c2.PublishEventAsync MessageSendEventType [("message_id", message.ID)])

/-- The method `ReplicaClient.ReceiveMessage` of messages.go. -/
def ReplicaClient.ReceiveMessage (c : ReplicaClient) : Outcome (Option Message × Bool) :=
  match c.messageQ.Pop with
  | .error e => .panic c e
  | .ok (r, q) => .ret { c with messageQ := q } r

/-! ## timers.go: the runtime's timer methods -/

/-- The method `ReplicaClient.StartTimer` of timers.go. The local variable
`duration`, clipped at zero, is not used by the event, which prints
`i.Duration()` itself. -/
def ReplicaClient.StartTimer (env : Env) (c : ReplicaClient) (i : TimeoutInfo) :
    ReplicaClient :=
  let r := c.timer.AddTimeout i
  let c1 := { c with timer := r.2 }
  if r.1 then
    c1.PublishEvent env TimeoutStartEventType
      [("type", i.Key), ("duration", env.DurationString i.Duration)]
  else c1

/-! ## handlers.go: the handlers of the embedded server -/

/-- An inbound request: its method and its body as `ioutil.ReadAll` and
`json.Unmarshal` decode it (`none` when either fails). -/
structure HTTPRequest (β : Type) where
  Method : String
  body : Option β

/-- The method `ReplicaClient.handleHealth` of handlers.go. -/
def ReplicaClient.handleHealth (c : ReplicaClient) : Response × ReplicaClient :=
  ({ status := 200, body := "Ok!" }, c)

/-- The method `ReplicaClient.handleMessage` of handlers.go. -/
def ReplicaClient.handleMessage (c : ReplicaClient) (r : HTTPRequest Message) :
    Response × ReplicaClient :=
  match r.body with
  | none => ({ status := 400, body := "Not OK!" }, c)
  | some message =>
    let c1 := c.PublishEventAsync MessageReceiveEventType [("message_id", message.ID)]
    let c2 := { c1 with messageQ := c1.messageQ.Add (some message) }
    ({ status := 200, body := "Ok!" }, c2)

/-- The switch of `handleDirective` (handlers.go, lines 55 to 70): the value
of `err` after it and the runtime. -/
def ReplicaClient.dispatch (env : Env) (c : ReplicaClient) (action : String) :
    Option String × ReplicaClient :=
  if action = startAction then
    let c1 := c.Ready
    (env.handlerStart,
      { c1 with handlerCalls := c1.handlerCalls ++ [HandlerCall.Start c1.IsReady] })
  else if action = stopAction then
    let c1 := c.unsetReady
    (env.handlerStop,
      { c1 with handlerCalls := c1.handlerCalls ++ [HandlerCall.Stop c1.IsReady] })
  else if action = restartAction then
    let c1 := c.unsetReady
    let c2 := { c1 with handlerCalls := c1.handlerCalls ++ [HandlerCall.Restart c1.IsReady] }
    (env.handlerRestart, c2.Ready)
  else if action = isReadyAction then
    if !c.IsReady then (some "replica not ready", c) else (none, c)
  else (none, c)

/-- The method `ReplicaClient.handleDirective` of handlers.go. -/
def ReplicaClient.handleDirective (env : Env) (c : ReplicaClient)
    (r : HTTPRequest directiveMessage) : Response × ReplicaClient :=
  match r.body with
  | none => ({ status := 400, body := "Not OK!" }, c)
  | some req =>
    match c.dispatch env req.Action with
    | (some _, c1) => ({ status := 500, body := "Not Ok!" }, c1)
    | (none, c1) => ({ status := 200, body := "Ok" }, c1)

/-- The method `ReplicaClient.handleTimeout` of handlers.go. -/
def ReplicaClient.handleTimeout (c : ReplicaClient) (r : HTTPRequest timeout) :
    Response × ReplicaClient :=
  match r.body with
  | none => ({ status := 400, body := "Not OK!" }, c)
  | some t =>
    let c1 := { c with timer := c.timer.FireTimeout t.Type_ }
    let c2 := c1.PublishEventAsync TimeoutEndEventType
      [("type", t.Type_), ("duration", t.Duration)]
    ({ status := 200, body := "Ok" }, c2)

/-- The function `postRequest` of handlers.go: the reply it writes when it
returns an error. -/
def postRequest {β : Type} (r : HTTPRequest β) : Option Response :=
  if r.Method ≠ "POST" then
    some { status := 405, body := "method not allowed: " ++ r.Method }
  else none

/-- The function `wrapHandler` of handlers.go. -/
def wrapHandler {β : Type} (handler : ReplicaClient → HTTPRequest β → Response × ReplicaClient)
    (validators : List (HTTPRequest β → Option Response)) :
    ReplicaClient → HTTPRequest β → Response × ReplicaClient :=
  fun c r =>
    match validators.findSome? (fun v => v r) with
    | some resp => (resp, c)
    | none => handler c r

/-! ## Runs of the runtime -/

/-- The spawned task number `n` of `goroutines` runs to its end. The listener
task serves requests, which are calls of their own, and stays. -/
def ReplicaClient.runGoroutine (env : Env) (c : ReplicaClient) (n : Nat) : ReplicaClient :=
  match c.goroutines.get? n with
  | none => c
  | some .ListenAndServe => c
  | some (.sendMasterMessage msg) =>
    ({ c with goroutines := c.goroutines.eraseIdx n }.sendMasterMessage env msg).2
  | some (.PublishEvent t params) =>
    { c with goroutines := c.goroutines.eraseIdx n }.PublishEvent env t params
  | some (.Log params message) =>
    { c with goroutines := c.goroutines.eraseIdx n }.Log env params message

/-- One step of a run: a call of the node into the runtime, a request served
by the embedded server, or a step of a spawned task. -/
inductive Call where
  | Start
  | Stop
  | Ready
  | NotReady
  | SendMessage (t to_ : String) (msg : List UInt8) (intercept : Bool)
  | ReceiveMessage
  | StartTimer (i : TimeoutInfo)
  | TimeoutChanRecv
  | PublishEvent (t : String) (params : List (String × String))
  | PublishEventAsync (t : String) (params : List (String × String))
  | Log (params : List (String × InterfaceValue)) (message : String)
  | LogAsync (params : List (String × InterfaceValue)) (message : String)
  | serveMessage (r : HTTPRequest Message)
  | serveDirective (r : HTTPRequest directiveMessage)
  | serveTimeout (r : HTTPRequest timeout)
  | serveHealth
  | runGoroutine (n : Nat)
  | timerSend (n : Nat)

/-- The runtime after one step. A step that panics leaves the runtime as it
was when the panic was raised. -/
def ReplicaClient.exec (env : Env) (c : ReplicaClient) : Call → ReplicaClient
  | .Start => (c.Start env).2
  | .Stop => (c.Stop env).state
  | .Ready => c.Ready
  | .NotReady => c.NotReady
  | .SendMessage t to_ msg intercept => (c.SendMessage env t to_ msg intercept).2
  | .ReceiveMessage => c.ReceiveMessage.state
  | .StartTimer i => c.StartTimer env i
  | .TimeoutChanRecv => { c with timer := c.timer.recv.2 }
  | .PublishEvent t params => c.PublishEvent env t params
  | .PublishEventAsync t params => c.PublishEventAsync t params
  | .Log params message => c.Log env params message
  | .LogAsync params message => c.LogAsync params message
  | .serveMessage r => (wrapHandler ReplicaClient.handleMessage [postRequest] c r).2
  | .serveDirective r =>
    (wrapHandler (fun c1 r1 => c1.handleDirective env r1) [postRequest] c r).2
  | .serveTimeout r => (wrapHandler ReplicaClient.handleTimeout [postRequest] c r).2
  | .serveHealth => c.handleHealth.2
  | .runGoroutine n => c.runGoroutine env n
  | .timerSend n => { c with timer := c.timer.send n }

/-- The runtime after a list of steps, each with what it takes from outside. -/
def ReplicaClient.runCalls : ReplicaClient → List (Env × Call) → ReplicaClient
  | c, [] => c
  | c, (env, call) :: rest => ReplicaClient.runCalls (c.exec env call) rest

/-- The handler registered for the route `/directive` by `NewReplicaClient`
(client.go, lines 132 to 134). -/
def ReplicaClient.serveDirective (env : Env) (c : ReplicaClient)
    (r : HTTPRequest directiveMessage) : Response × ReplicaClient :=
  wrapHandler (fun c1 r1 => c1.handleDirective env r1) [postRequest] c r

/-! ## Runs of the identifier generator -/

/-- A call of `Next` or of `NextID` on a counter. -/
inductive CounterOp where
  | Next
  | NextID (from_ to_ : String)
deriving DecidableEq, Repr

/-- The calls of a list are made one after the other, with no `Reset`; the
result is the list of strings the `NextID` calls returned, in order, and the
counter afterwards. -/
def Counter.runOps : Counter → List CounterOp → List String × Counter
  | id, [] => ([], id)
  | id, .Next :: ops => Counter.runOps id.Next.2 ops
  | id, .NextID from_ to_ :: ops =>
    let r := id.NextID from_ to_
    let rs := Counter.runOps r.2 ops
    (r.1 :: rs.1, rs.2)

/-- The number a list of characters denotes when read as decimal digits, most
significant first. -/
def decValue (cs : List Char) : Nat :=
  cs.foldl (fun acc c => 10 * acc + (c.toNat - 48)) 0

/-! ## Concurrent calls of `timer.FireTimeout` -/

/-- Where one call of `timer.FireTimeout` stands: not yet started on `key`;
past the lookup under the lock (lines 51 to 53) with the values of `info` and
`ok` it read; past the deletion under the lock (lines 55 to 57); returned. -/
inductive FireThread where
  | call (key : String)
  | looked (key : String) (info : Option TimeoutInfo)
  | deleted (info : TimeoutInfo)
  | returned
deriving DecidableEq, Repr

/-- The next step of one call of `timer.FireTimeout`: each step is atomic,
being either one critical section or the `go` statement. -/
def timer.fireStep (t : timer) : FireThread → timer × FireThread
  | .call key => (t, .looked key (t.timeouts key))
  | .looked key (some info) => (t.delete key, .deleted info)
  | .looked _ none => (t, .returned)
  | .deleted info => (t.spawnSend info, .returned)
  | .returned => (t, .returned)

/-- The calls of `threads` run concurrently: the schedule names, step by
step, the call that takes its next step. -/
def timer.interleave : timer → List FireThread → List Nat → timer × List FireThread
  | t, threads, [] => (t, threads)
  | t, threads, n :: schedule =>
    match threads.get? n with
    | none => timer.interleave t threads schedule
    | some th =>
      timer.interleave (t.fireStep th).1 (threads.set n (t.fireStep th).2) schedule

/-- The request that relays a message to the controller: a POST on the route
`/message` of the controller whose body is the message with the given fields
and the identifier made of the sender, the receiver and the number `n`. -/
def relayRequest (config : Config) (t to_ : String) (msg : List UInt8) (intercept : Bool)
    (n : Int) : Request :=
  { addr := "http://" ++ config.NetrixAddr ++ "/message"
    body := .Message (some
      { Type_ := t, From := config.ReplicaID, To := to_,
        ID := config.ReplicaID ++ "_" ++ to_ ++ "_" ++ toString n,
        Data := msg, Intercept := intercept }) }

/-- The request that registers the replica with the controller: a POST on the
route `/replica` whose body is the replica's record with the given readiness. -/
def registrationRequest (config : Config) (ready : Bool) : Request :=
  { addr := "http://" ++ config.NetrixAddr ++ "/replica"
    body := .Replica (some
      { ID := config.ReplicaID, Info := config.Info, Addr := config.ClientAdvAddr,
        Ready := ready }) }

/-- The arguments of one `SendMessage` call, as a step of a run. -/
def sendCall (p : Env × String × String × List UInt8 × Bool) : Env × Call :=
  (p.1, Call.SendMessage p.2.1 p.2.2.1 p.2.2.2.1 p.2.2.2.2)

/-! ## Concrete inputs -/

/-- A message from replica r2. -/
def exMsg1 : Message :=
  { Type_ := "vote", From := "r2", To := "r1", ID := "r2_r1_0", Data := [], Intercept := true }

/-- A message from replica r3. -/
def exMsg2 : Message :=
  { Type_ := "vote", From := "r3", To := "r1", ID := "r3_r1_0", Data := [1, 2], Intercept := false }

/-- An unblocked queue that holds one message. -/
def exQueue : MessageQueue :=
  { messages := [some exMsg1], size := 1, block := false }

/-- The config of replica r1, with no advertised address. -/
def exConfig : Config :=
  { ReplicaID := "r1", NetrixAddr := "ctrl:9000", ClientServerAddr := ":8001",
    ClientAdvAddr := "", Info := [] }

/-- The runtime `NewReplicaClient` builds from `exConfig`. -/
def exClient : ReplicaClient :=
  ReplicaClient.new { exConfig with ClientAdvAddr := ":8001" }

/-- An environment in which the controller answers 200 to every request and
the handler and the listener report no error. Its `DurationString` is a
stand-in for `time.Duration.String` that agrees with it on whole seconds
below a minute. -/
def exEnv : Env :=
  { Do := fun _ => .ok 200
    NewRequest := fun _ => none
    now := 1700000000
    handlerStart := none
    handlerStop := none
    handlerRestart := none
    listenErr := none
    shutdownErr := none
    DurationString := fun n =>
      if n % 1000000000 = 0 then toString (n / 1000000000) ++ "s" else toString n ++ "ns" }

/-- The runtime `exClient` after a first `Start`. -/
def exRunning : ReplicaClient :=
  (exClient.Start exEnv).2

/-- A timeout with key election and a duration of five seconds. -/
def exTimeout : TimeoutInfo :=
  { Key := "election", Duration := 5000000000 }

/-- The runtime `exRunning` after `Ready`: running and ready. -/
def exReady : ReplicaClient :=
  exRunning.Ready

/-- The registry that holds the timeout `exTimeout` and nothing else. -/
def exTimer : timer :=
  (newTimer.AddTimeout exTimeout).2

/-! ## The message queue: lemmas -/

/-- The queue made by `NewMessageQueue` satisfies the invariant. -/
theorem NewMessageQueue_WF : NewMessageQueue.WF := by
  simp [MessageQueue.WF, NewMessageQueue]

/-- The method `Add` keeps the invariant. -/
theorem MessageQueue.Add_WF (q : MessageQueue) (m : Option Message) (h : q.WF) :
    (q.Add m).WF := by
  unfold MessageQueue.WF at *
  unfold MessageQueue.Add
  split
  · exact h
  · simp [h]

/-- The method `Pop` keeps the invariant and does not panic on a queue that
satisfies it. -/
theorem MessageQueue.Pop_WF (q : MessageQueue) (h : q.WF) :
    ∃ r q1, q.Pop = .ok (r, q1) ∧ q1.WF := by
  unfold MessageQueue.WF at h
  unfold MessageQueue.Pop
  split
  · exact ⟨_, _, rfl, h⟩
  · rcases hq : q.messages with _ | ⟨front, rest⟩
    · rw [hq] at h
      simp at h
      omega
    · refine ⟨_, _, rfl, ?_⟩
      simp [MessageQueue.WF, h, hq]

/-- Unfolding of a run at a `Pop` that returns. -/
theorem MessageQueue.run_Pop_ok (q q1 : MessageQueue) (r : Option Message × Bool)
    (ops : List QueueOp) (h : q.Pop = .ok (r, q1)) :
    MessageQueue.run q (QueueOp.Pop :: ops)
      = match MessageQueue.run q1 ops with
        | .error e => .error e
        | .ok (rs, q2) => .ok (r :: rs, q2) := by
  rw [MessageQueue.run, h]

/-- Unfolding of a run at an `Add`. -/
theorem MessageQueue.run_Add (q : MessageQueue) (m : Option Message) (ops : List QueueOp) :
    MessageQueue.run q (QueueOp.Add m :: ops) = MessageQueue.run (q.Add m) ops := by
  rw [MessageQueue.run]

/-- Popping a queue of `l.length` entries `l.length + 1` times returns the
entries in order and then reports the queue empty. -/
theorem MessageQueue.run_pops (l : List (Option Message)) (b : Bool) :
    MessageQueue.run { messages := l, size := l.length, block := b }
        (List.replicate (l.length + 1) QueueOp.Pop)
      = .ok (l.map (fun m => (m, true)) ++ [(none, false)],
          { messages := [], size := 0, block := b }) := by
  induction l with
  | nil => simp [MessageQueue.run, MessageQueue.Pop]
  | cons a l ih =>
    have hpop : MessageQueue.Pop { messages := a :: l, size := ((a :: l).length : Nat), block := b }
        = .ok ((a, true), { messages := l, size := l.length, block := b }) := by
      have hlt : ¬ ((l.length : Int) + 1 < 1) := by omega
      simp [MessageQueue.Pop, hlt]
    rw [List.length_cons, List.replicate_succ, ← List.length_cons a l,
      MessageQueue.run_Pop_ok _ _ _ _ hpop, List.length_cons, ih]
    simp

/-- A run of `Add` calls on an unblocked queue appends the messages. -/
theorem MessageQueue.run_adds (ms : List (Option Message)) (l : List (Option Message))
    (n : Int) (rest : List QueueOp) :
    MessageQueue.run { messages := l, size := n, block := false }
        (ms.map QueueOp.Add ++ rest)
      = MessageQueue.run { messages := l ++ ms, size := n + ms.length, block := false } rest := by
  induction ms generalizing l n with
  | nil => simp
  | cons a ms ih =>
    rw [List.map_cons, List.cons_append, MessageQueue.run_Add]
    have hadd : MessageQueue.Add { messages := l, size := n, block := false } a
        = { messages := l ++ [a], size := n + 1, block := false } := by
      simp [MessageQueue.Add]
    rw [hadd, ih]
    have hn : n + 1 + (ms.length : Int) = n + ((a :: ms).length : Nat) := by
      rw [List.length_cons]
      push_cast
      ring
    rw [hn]
    simp

/-- The method `Add` does nothing on a blocked queue. -/
theorem MessageQueue.Add_blocked (q : MessageQueue) (m : Option Message)
    (h : q.block = true) : q.Add m = q := by
  simp [MessageQueue.Add, h]

/-- The method `Pop` does not change the block flag. -/
theorem MessageQueue.Pop_block (q q1 : MessageQueue) (r : Option Message × Bool)
    (h : q.Pop = .ok (r, q1)) : q1.block = q.block := by
  unfold MessageQueue.Pop at h
  split at h
  · cases h; rfl
  · split at h
    · cases h
    · cases h; rfl

/-- While the queue stays blocked, the `Add` calls of a run can be erased
without changing what the run returns or the queue it ends in. -/
theorem MessageQueue.run_blocked_erase (window post : List QueueOp) (s : MessageQueue)
    (hb : s.block = true) (hw : QueueOp.UnBlock ∉ window) :
    MessageQueue.run s (window ++ post)
      = MessageQueue.run s (window.filter (fun op => !op.isAdd) ++ post) := by
  induction window generalizing s with
  | nil => rfl
  | cons op w ih =>
    have hw1 : QueueOp.UnBlock ∉ w := fun h => hw (List.mem_cons_of_mem _ h)
    cases op with
    | Add m =>
      rw [List.cons_append, MessageQueue.run_Add, MessageQueue.Add_blocked s m hb, ih s hb hw1]
      simp [QueueOp.isAdd]
    | Pop =>
      have hf : (QueueOp.Pop :: w).filter (fun op => !op.isAdd)
          = QueueOp.Pop :: w.filter (fun op => !op.isAdd) := by
        simp [QueueOp.isAdd]
      rw [hf, List.cons_append, List.cons_append]
      rcases hp : s.Pop with e | ⟨r, q1⟩
      · rw [MessageQueue.run, MessageQueue.run, hp]
      · have hb1 : q1.block = true := by
          rw [MessageQueue.Pop_block s q1 r hp]; exact hb
        rw [MessageQueue.run_Pop_ok s q1 r _ hp, MessageQueue.run_Pop_ok s q1 r _ hp,
          ih q1 hb1 hw1]
    | Flush =>
      have hf : (QueueOp.Flush :: w).filter (fun op => !op.isAdd)
          = QueueOp.Flush :: w.filter (fun op => !op.isAdd) := by
        simp [QueueOp.isAdd]
      rw [hf, List.cons_append, List.cons_append, MessageQueue.run, MessageQueue.run]
      exact ih s.Flush hb hw1
    | Block =>
      have hf : (QueueOp.Block :: w).filter (fun op => !op.isAdd)
          = QueueOp.Block :: w.filter (fun op => !op.isAdd) := by
        simp [QueueOp.isAdd]
      rw [hf, List.cons_append, List.cons_append, MessageQueue.run, MessageQueue.run]
      exact ih s.Block rfl hw1
    | UnBlock => exact absurd (List.mem_cons_self _ _) hw

/-- A run without `UnBlock` that starts on a blocked queue ends on a blocked
queue. -/
theorem MessageQueue.run_blocked_state (window : List QueueOp) (s s1 : MessageQueue)
    (out : List (Option Message × Bool)) (hb : s.block = true)
    (hw : QueueOp.UnBlock ∉ window) (hr : MessageQueue.run s window = .ok (out, s1)) :
    s1.block = true := by
  induction window generalizing s out with
  | nil =>
    rw [MessageQueue.run] at hr
    cases hr
    exact hb
  | cons op w ih =>
    have hw1 : QueueOp.UnBlock ∉ w := fun h => hw (List.mem_cons_of_mem _ h)
    cases op with
    | Add m =>
      rw [MessageQueue.run_Add, MessageQueue.Add_blocked s m hb] at hr
      exact ih s out hb hw1 hr
    | Pop =>
      rcases hp : s.Pop with e | ⟨r, q1⟩
      · rw [MessageQueue.run, hp] at hr
        cases hr
      · have hb1 : q1.block = true := by
          rw [MessageQueue.Pop_block s q1 r hp]; exact hb
        rw [MessageQueue.run_Pop_ok s q1 r _ hp] at hr
        rcases hq : MessageQueue.run q1 w with e | ⟨rs, q2⟩
        · rw [hq] at hr
          cases hr
        · rw [hq] at hr
          cases hr
          exact ih q1 rs hb1 hw1 hq
    | Flush =>
      rw [MessageQueue.run] at hr
      exact ih s.Flush out hb hw1 hr
    | Block =>
      rw [MessageQueue.run] at hr
      exact ih s.Block out rfl hw1 hr
    | UnBlock => exact absurd (List.mem_cons_self _ _) hw

/-- A run that starts on a queue satisfying the invariant does not panic and
ends on a queue satisfying it. -/
theorem MessageQueue.run_WF (ops : List QueueOp) (q : MessageQueue) (h : q.WF) :
    ∃ out q1, MessageQueue.run q ops = .ok (out, q1) ∧ q1.WF := by
  induction ops generalizing q with
  | nil => exact ⟨[], q, rfl, h⟩
  | cons op ops ih =>
    cases op with
    | Add m =>
      rw [MessageQueue.run_Add]
      exact ih _ (MessageQueue.Add_WF q m h)
    | Pop =>
      obtain ⟨r, q1, hp, hq1⟩ := MessageQueue.Pop_WF q h
      obtain ⟨out, q2, hr, hq2⟩ := ih q1 hq1
      refine ⟨r :: out, q2, ?_, hq2⟩
      rw [MessageQueue.run_Pop_ok q q1 r _ hp, hr]
    | Flush =>
      rw [MessageQueue.run]
      exact ih _ (by simp [MessageQueue.WF, MessageQueue.Flush])
    | Block =>
      rw [MessageQueue.run]
      exact ih _ (by simpa [MessageQueue.WF, MessageQueue.Block] using h)
    | UnBlock =>
      rw [MessageQueue.run]
      exact ih _ (by simpa [MessageQueue.WF, MessageQueue.UnBlock] using h)

/-! ## The message queue: the claims -/

/-- C1. Messages added to a new queue, with no other call in between, are
popped in the order they were added, each with `true`, and the next `Pop`
returns `(nil, false)`; and on any unblocked queue that satisfies the
invariant, `Add(m)` followed by popping until empty returns the earlier
contents in order, then `m`, then `(nil, false)`. -/
theorem C1_queue_fifo :
    (∀ ms : List (Option Message),
      MessageQueue.run NewMessageQueue
          (ms.map QueueOp.Add ++ List.replicate (ms.length + 1) QueueOp.Pop)
        = .ok (ms.map (fun m => (m, true)) ++ [(none, false)], NewMessageQueue))
    ∧ (∀ (q : MessageQueue) (m : Option Message), q.WF → q.block = false →
      MessageQueue.run q
          (QueueOp.Add m :: List.replicate (q.messages.length + 2) QueueOp.Pop)
        = .ok ((q.messages ++ [m]).map (fun x => (x, true)) ++ [(none, false)],
            { messages := [], size := 0, block := false })) := by
  constructor
  · intro ms
    have h := MessageQueue.run_adds ms [] 0 (List.replicate (ms.length + 1) QueueOp.Pop)
    have hp := MessageQueue.run_pops ms false
    simp only [List.nil_append, zero_add] at h
    unfold NewMessageQueue
    rw [h, hp]
  · intro q m hwf hb
    obtain ⟨l, n, b⟩ := q
    simp only [MessageQueue.WF] at hwf
    simp only at hb
    subst hwf hb
    have h := MessageQueue.run_adds [m] l (l.length : Int)
      (List.replicate (l.length + 2) QueueOp.Pop)
    have hp := MessageQueue.run_pops (l ++ [m]) false
    simp only [List.map_cons, List.map_nil, List.cons_append, List.nil_append,
      List.length_cons, List.length_nil] at h
    simp only [List.length_append, List.length_cons, List.length_nil] at hp
    push_cast at h hp
    rw [h, hp]

/-- C1, at a queue that holds one message: adding a second one and popping
three times returns the two in order and then `(nil, false)`. -/
theorem C1_queue_fifo_witness :
    exQueue.WF ∧ exQueue.block = false ∧
    MessageQueue.run exQueue
        [QueueOp.Add (some exMsg2), QueueOp.Pop, QueueOp.Pop, QueueOp.Pop]
      = .ok ([(some exMsg1, true), (some exMsg2, true), (none, false)],
          { messages := [], size := 0, block := false }) :=
  ⟨by decide, rfl, C1_queue_fifo.2 exQueue (some exMsg2) (by decide) rfl⟩

/-- C2. After `Block`, as long as no `UnBlock` is called: every `Add` returns
the queue it was given (same contents, same size); erasing the `Add` calls of
that window changes neither the values returned by any `Pop` of the rest of
the run, `UnBlock` and later calls included, nor the final queue; and the
messages queued before `Block` are popped in their order, followed by
`(nil, false)`. -/
theorem C2_block_discards_adds :
    (∀ (q : MessageQueue) (m : Option Message), q.Block.Add m = q.Block)
    ∧ (∀ (q s : MessageQueue) (window : List QueueOp) (out : List (Option Message × Bool))
        (m : Option Message), QueueOp.UnBlock ∉ window →
        MessageQueue.run q (QueueOp.Block :: window) = .ok (out, s) →
        s.Add m = s ∧ (s.Add m).messages = s.messages ∧ (s.Add m).size = s.size)
    ∧ (∀ (q : MessageQueue) (window post : List QueueOp), QueueOp.UnBlock ∉ window →
        MessageQueue.run q (QueueOp.Block :: (window ++ post))
          = MessageQueue.run q
              (QueueOp.Block :: (window.filter (fun op => !op.isAdd) ++ post)))
    ∧ (∀ (q : MessageQueue) (ms : List (Option Message)), q.WF →
        MessageQueue.run q
            (QueueOp.Block ::
              (ms.map QueueOp.Add ++ List.replicate (q.messages.length + 1) QueueOp.Pop))
          = .ok (q.messages.map (fun x => (x, true)) ++ [(none, false)],
              { messages := [], size := 0, block := true })) := by
  refine ⟨?_, ?_, ?_, ?_⟩
  · intro q m
    exact MessageQueue.Add_blocked q.Block m rfl
  · intro q s window out m hw hr
    rw [MessageQueue.run] at hr
    have hb := MessageQueue.run_blocked_state window q.Block s out rfl hw hr
    have hs := MessageQueue.Add_blocked s m hb
    exact ⟨hs, by rw [hs], by rw [hs]⟩
  · intro q window post hw
    rw [MessageQueue.run, MessageQueue.run]
    exact MessageQueue.run_blocked_erase window post q.Block rfl hw
  · intro q ms hwf
    have hw : QueueOp.UnBlock ∉ ms.map QueueOp.Add := by simp
    have hf : (ms.map QueueOp.Add).filter (fun op => !op.isAdd) = [] := by
      simp [List.filter_eq_nil_iff, QueueOp.isAdd]
    rw [MessageQueue.run, MessageQueue.run_blocked_erase _ _ q.Block rfl hw, hf,
      List.nil_append]
    obtain ⟨l, n, b⟩ := q
    simp only [MessageQueue.WF] at hwf
    subst hwf
    exact MessageQueue.run_pops l true

/-- C2, at a queue that holds one message: a message added between `Block`
and `UnBlock` is not returned by the `Pop` calls made after `UnBlock`. -/
theorem C2_block_discards_adds_witness :
    QueueOp.UnBlock ∉ [QueueOp.Add (some exMsg2)] ∧
    MessageQueue.run exQueue
        [QueueOp.Block, QueueOp.Add (some exMsg2), QueueOp.UnBlock, QueueOp.Pop, QueueOp.Pop]
      = MessageQueue.run exQueue
        [QueueOp.Block, QueueOp.UnBlock, QueueOp.Pop, QueueOp.Pop] ∧
    MessageQueue.run exQueue
        [QueueOp.Block, QueueOp.UnBlock, QueueOp.Pop, QueueOp.Pop]
      = .ok ([(some exMsg1, true), (none, false)],
          { messages := [], size := 0, block := false }) :=
  ⟨by decide,
   C2_block_discards_adds.2.2.1 exQueue [QueueOp.Add (some exMsg2)]
     [QueueOp.UnBlock, QueueOp.Pop, QueueOp.Pop] (by decide),
   rfl⟩

/-! ## The runtime: sending, starting and stopping -/

/-- The method `sendMasterMessage` changes only the list of requests. -/
theorem ReplicaClient.sendMasterMessage_frame (env : Env) (c : ReplicaClient)
    (msg : masterRequest) :
    ∃ l, (c.sendMasterMessage env msg).2 = { c with masterClient := l } := by
  unfold ReplicaClient.sendMasterMessage
  simp only
  split
  · exact ⟨c.masterClient, rfl⟩
  · split
    · exact ⟨c.masterClient, rfl⟩
    · split
      · exact ⟨_, rfl⟩
      · split <;> exact ⟨_, rfl⟩

/-- The method `sendMasterMessage` leaves the stop signal as it is. -/
theorem ReplicaClient.sendMasterMessage_stopCh (env : Env) (c : ReplicaClient)
    (msg : masterRequest) : (c.sendMasterMessage env msg).2.stopCh = c.stopCh := by
  obtain ⟨l, h⟩ := ReplicaClient.sendMasterMessage_frame env c msg
  rw [h]

/-- The method `SendMessage` on a runtime whose stop signal is closed. -/
theorem ReplicaClient.SendMessage_stopped (env : Env) (c : ReplicaClient) (t to_ : String)
    (msg : List UInt8) (intercept : Bool) (h : c.stopCh = true) :
    c.SendMessage env t to_ msg intercept = (some "controller stopped. EOF", c) := by
  simp [ReplicaClient.SendMessage, h]

/-- The method `SendMessage` leaves the stop signal as it is. -/
theorem ReplicaClient.SendMessage_stopCh (env : Env) (c : ReplicaClient) (t to_ : String)
    (msg : List UInt8) (intercept : Bool) :
    (c.SendMessage env t to_ msg intercept).2.stopCh = c.stopCh := by
  unfold ReplicaClient.SendMessage
  split
  · rfl
  · split
    · rfl
    · simp only
      split
      · next err c2 h =>
        have h2 := ReplicaClient.sendMasterMessage_stopCh env
          { c with counter := (c.counter.NextID c.config.ReplicaID to_).2 }
          { Type_ := "InterceptedMessage"
            Message := some
              { Type_ := t, From := c.config.ReplicaID, To := to_,
                ID := (c.counter.NextID c.config.ReplicaID to_).1, Data := msg,
                Intercept := intercept } }
        rw [h] at h2
        exact h2
      · next c2 h =>
        have h2 := ReplicaClient.sendMasterMessage_stopCh env
          { c with counter := (c.counter.NextID c.config.ReplicaID to_).2 }
          { Type_ := "InterceptedMessage"
            Message := some
              { Type_ := t, From := c.config.ReplicaID, To := to_,
                ID := (c.counter.NextID c.config.ReplicaID to_).1, Data := msg,
                Intercept := intercept } }
        rw [h] at h2
        exact h2

/-- The method `Start` leaves the stop signal as it is. -/
theorem ReplicaClient.Start_stopCh (env : Env) (c : ReplicaClient) :
    (c.Start env).2.stopCh = c.stopCh := by
  unfold ReplicaClient.Start
  split
  · rfl
  · simp only
    split <;> exact ReplicaClient.sendMasterMessage_stopCh env c _

/-- The method `Stop` never reopens the stop signal. -/
theorem ReplicaClient.Stop_stopCh (env : Env) (c : ReplicaClient) (h : c.stopCh = true) :
    (c.Stop env).state.stopCh = true := by
  unfold ReplicaClient.Stop
  split
  · exact h
  · simp [h, Outcome.state]

/-- The method `PublishEvent` leaves the stop signal as it is. -/
theorem ReplicaClient.PublishEvent_stopCh (env : Env) (c : ReplicaClient) (t : String)
    (params : List (String × String)) : (c.PublishEvent env t params).stopCh = c.stopCh :=
  ReplicaClient.sendMasterMessage_stopCh env c _

/-- The method `Log` leaves the stop signal as it is. -/
theorem ReplicaClient.Log_stopCh (env : Env) (c : ReplicaClient)
    (params : List (String × InterfaceValue)) (message : String) :
    (c.Log env params message).stopCh = c.stopCh :=
  ReplicaClient.sendMasterMessage_stopCh env c _

/-- The switch of `handleDirective` leaves the stop signal as it is. -/
theorem ReplicaClient.dispatch_stopCh (env : Env) (c : ReplicaClient) (action : String) :
    (c.dispatch env action).2.stopCh = c.stopCh := by
  unfold ReplicaClient.dispatch
  split
  · rfl
  · split
    · rfl
    · split
      · rfl
      · split
        · split <;> rfl
        · rfl

/-- A wrapped handler leaves the stop signal as it is when the handler does. -/
theorem wrapHandler_stopCh {β : Type}
    (handler : ReplicaClient → HTTPRequest β → Response × ReplicaClient)
    (validators : List (HTTPRequest β → Option Response))
    (hh : ∀ c r, (handler c r).2.stopCh = c.stopCh) (c : ReplicaClient) (r : HTTPRequest β) :
    (wrapHandler handler validators c r).2.stopCh = c.stopCh := by
  unfold wrapHandler
  split
  · rfl
  · exact hh c r

/-- No step of a run reopens the stop signal. -/
theorem ReplicaClient.exec_stopCh (env : Env) (c : ReplicaClient) (call : Call)
    (h : c.stopCh = true) : (c.exec env call).stopCh = true := by
  cases call with
  | Start => rw [ReplicaClient.exec, ReplicaClient.Start_stopCh]; exact h
  | Stop => exact ReplicaClient.Stop_stopCh env c h
  | Ready => exact h
  | NotReady => exact h
  | SendMessage t to_ msg intercept =>
    rw [ReplicaClient.exec, ReplicaClient.SendMessage_stopCh]; exact h
  | ReceiveMessage =>
    rw [ReplicaClient.exec]
    unfold ReplicaClient.ReceiveMessage
    split <;> exact h
  | StartTimer i =>
    rw [ReplicaClient.exec]
    unfold ReplicaClient.StartTimer
    simp only
    split
    · rw [ReplicaClient.PublishEvent_stopCh]; exact h
    · exact h
  | TimeoutChanRecv => exact h
  | PublishEvent t params =>
    rw [ReplicaClient.exec, ReplicaClient.PublishEvent_stopCh]; exact h
  | PublishEventAsync t params => exact h
  | Log params message =>
    rw [ReplicaClient.exec, ReplicaClient.Log_stopCh]; exact h
  | LogAsync params message => exact h
  | serveMessage r =>
    rw [ReplicaClient.exec, wrapHandler_stopCh]
    · exact h
    · intro c1 r1
      unfold ReplicaClient.handleMessage
      split <;> rfl
  | serveDirective r =>
    rw [ReplicaClient.exec, wrapHandler_stopCh]
    · exact h
    · intro c1 r1
      unfold ReplicaClient.handleDirective
      split
      · rfl
      · next req _ =>
        have hd := ReplicaClient.dispatch_stopCh env c1 req.Action
        split
        · next e c2 he => rw [he] at hd; exact hd
        · next c2 he => rw [he] at hd; exact hd
  | serveTimeout r =>
    rw [ReplicaClient.exec, wrapHandler_stopCh]
    · exact h
    · intro c1 r1
      unfold ReplicaClient.handleTimeout
      split <;> rfl
  | serveHealth => exact h
  | runGoroutine n =>
    rw [ReplicaClient.exec]
    unfold ReplicaClient.runGoroutine
    split
    · exact h
    · exact h
    · rw [ReplicaClient.sendMasterMessage_stopCh]; exact h
    · rw [ReplicaClient.PublishEvent_stopCh]; exact h
    · rw [ReplicaClient.Log_stopCh]; exact h
  | timerSend n => exact h

/-- No run reopens the stop signal. -/
theorem ReplicaClient.runCalls_stopCh (calls : List (Env × Call)) (c : ReplicaClient)
    (h : c.stopCh = true) : (c.runCalls calls).stopCh = true := by
  induction calls generalizing c with
  | nil => exact h
  | cons ec rest ih =>
    obtain ⟨env, call⟩ := ec
    rw [ReplicaClient.runCalls]
    exact ih _ (ReplicaClient.exec_stopCh env c call h)

/-- C3. With the stop signal open and the readiness flag false,
`SendMessage` returns nil and leaves the runtime as it was: no request is
handed to the controller client, no task (hence no telemetry event) is
spawned, and the counter keeps its value. -/
theorem C3_send_not_ready_is_silent (env : Env) (c : ReplicaClient) (t to_ : String)
    (msg : List UInt8) (intercept : Bool) (hs : c.stopCh = false) (hr : c.ready = false) :
    (c.SendMessage env t to_ msg intercept).1 = none
    ∧ (c.SendMessage env t to_ msg intercept).2 = c
    ∧ (c.SendMessage env t to_ msg intercept).2.masterClient = c.masterClient
    ∧ (c.SendMessage env t to_ msg intercept).2.goroutines = c.goroutines
    ∧ (c.SendMessage env t to_ msg intercept).2.counter = c.counter := by
  have h : c.SendMessage env t to_ msg intercept = (none, c) := by
    simp [ReplicaClient.SendMessage, ReplicaClient.IsReady, hs, hr]
  rw [h]
  exact ⟨rfl, rfl, rfl, rfl, rfl⟩

/-- C3, at the runtime just built for replica r1, which is not ready. -/
theorem C3_send_not_ready_is_silent_witness :
    exClient.stopCh = false ∧ exClient.ready = false
    ∧ (exClient.SendMessage exEnv "vote" "r2" [1, 2, 3] true).1 = none
    ∧ (exClient.SendMessage exEnv "vote" "r2" [1, 2, 3] true).2.masterClient = []
    ∧ (exClient.SendMessage exEnv "vote" "r2" [1, 2, 3] true).2.counter = NewCounter :=
  have h := C3_send_not_ready_is_silent exEnv exClient "vote" "r2" [1, 2, 3] true rfl rfl
  ⟨rfl, rfl, h.1, h.2.2.1, h.2.2.2.2⟩

/-- C4. On a running runtime, whatever `Stop` returns and whatever steps are
taken afterwards, each later `SendMessage` returns the error
"controller stopped. EOF" and leaves the runtime as it was (no request, no
spawned task, no identifier consumed), whatever the readiness flag; and when
the stop signal was open, `Stop` returns without a panic, with the signal
closed and the runtime not running. -/
theorem C4_send_after_stop_fails (env env1 : Env) (c : ReplicaClient)
    (later : List (Env × Call)) (t to_ : String) (msg : List UInt8) (intercept : Bool)
    (hrun : c.started = true) :
    ((c.Stop env).state.runCalls later).SendMessage env1 t to_ msg intercept
        = (some "controller stopped. EOF", (c.Stop env).state.runCalls later)
    ∧ (c.stopCh = false →
        ∃ err, c.Stop env = .ret { c with stopCh := true, started := false } err) := by
  have hclosed : (c.Stop env).state.stopCh = true := by
    unfold ReplicaClient.Stop
    simp only [ReplicaClient.IsRunning, hrun, Bool.not_true, Bool.false_eq_true, if_false]
    split
    · next h => exact h
    · split <;> rfl
  refine ⟨ReplicaClient.SendMessage_stopped env1 _ t to_ msg intercept
    (ReplicaClient.runCalls_stopCh later _ hclosed), ?_⟩
  intro hs
  unfold ReplicaClient.Stop
  simp only [ReplicaClient.IsRunning, hrun, hs, Bool.not_true, Bool.false_eq_true, if_false]
  split
  · exact ⟨_, rfl⟩
  · exact ⟨_, rfl⟩

/-- C4, at the runtime of replica r1 after `Start`: it is stopped, started
again and made ready, and `SendMessage` still returns the error. -/
theorem C4_send_after_stop_fails_witness :
    exRunning.started = true
    ∧ ((exRunning.Stop exEnv).state.runCalls [(exEnv, Call.Start), (exEnv, Call.Ready)]).ready
        = true
    ∧ (((exRunning.Stop exEnv).state.runCalls
          [(exEnv, Call.Start), (exEnv, Call.Ready)]).SendMessage exEnv "vote" "r2" [] true).1
        = some "controller stopped. EOF" :=
  ⟨rfl, rfl,
   congrArg Prod.fst
     (C4_send_after_stop_fails exEnv exEnv exRunning [(exEnv, Call.Start), (exEnv, Call.Ready)]
       "vote" "r2" [] true rfl).1⟩

/-- On a running runtime whose stop signal is already closed, `Stop` panics. -/
theorem ReplicaClient.Stop_closed_panics (env : Env) (c : ReplicaClient)
    (hrun : c.started = true) (hs : c.stopCh = true) :
    c.Stop env = .panic c "close of closed channel" := by
  simp [ReplicaClient.Stop, ReplicaClient.IsRunning, hrun, hs]

/-- C5. On the runtime of replica r1, with a listener that reports no bind
failure, the calls `Start`, `Stop`, `Start` return nil and leave the runtime
running with its stop signal closed, and the `Stop` that follows panics with
"close of closed channel". -/
theorem C5_second_stop_panics :
    (exClient.Start exEnv).1 = none
    ∧ (∃ c1, (exClient.Start exEnv).2.Stop exEnv = .ret c1 none)
    ∧ (((exClient.Start exEnv).2.Stop exEnv).state.Start exEnv).1 = none
    ∧ (((exClient.Start exEnv).2.Stop exEnv).state.Start exEnv).2.started = true
    ∧ (((exClient.Start exEnv).2.Stop exEnv).state.Start exEnv).2.stopCh = true
    ∧ ((((exClient.Start exEnv).2.Stop exEnv).state.Start exEnv).2.Stop exEnv).panicked = true
    ∧ (((exClient.Start exEnv).2.Stop exEnv).state.Start exEnv).2.Stop exEnv
        = .panic (((exClient.Start exEnv).2.Stop exEnv).state.Start exEnv).2
            "close of closed channel" :=
  ⟨rfl, ⟨_, rfl⟩, rfl, rfl, rfl, rfl, rfl⟩

/-! ## The timer registry -/

/-- The method `AddTimeout` on a key that is not pending. -/
theorem timer.AddTimeout_fresh (t : timer) (info : TimeoutInfo)
    (h : t.timeouts info.Key = none) :
    t.AddTimeout info
      = (true, { t with timeouts := fun k => if k = info.Key then some info else t.timeouts k }) := by
  simp [timer.AddTimeout, h]

/-- The method `AddTimeout` on a key that is pending. -/
theorem timer.AddTimeout_pending (t : timer) (info i : TimeoutInfo)
    (h : t.timeouts info.Key = some i) : t.AddTimeout info = (false, t) := by
  simp [timer.AddTimeout, h]

/-- The method `FireTimeout` on a key that is pending. -/
theorem timer.FireTimeout_pending (t : timer) (key : String) (i : TimeoutInfo)
    (h : t.timeouts key = some i) :
    t.FireTimeout key
      = { timeouts := fun k => if k = key then none else t.timeouts k
          outChan := t.outChan
          senders := t.senders ++ [i] } := by
  simp [timer.FireTimeout, timer.delete, timer.spawnSend, h]

/-- The method `FireTimeout` on a key that is not pending. -/
theorem timer.FireTimeout_absent (t : timer) (key : String) (h : t.timeouts key = none) :
    t.FireTimeout key = t := by
  simp [timer.FireTimeout, h]

/-- A pending key stays pending, with the same info, through every run that
does not fire it. -/
theorem timer.run_keeps_pending (ops : List TimerOp) (t : timer) (key : String)
    (i : TimeoutInfo) (h : t.timeouts key = some i) (hf : TimerOp.FireTimeout key ∉ ops) :
    (timer.run t ops).timeouts key = some i := by
  induction ops generalizing t with
  | nil => exact h
  | cons op ops ih =>
    have hf1 : TimerOp.FireTimeout key ∉ ops := fun hm => hf (List.mem_cons_of_mem _ hm)
    cases op with
    | AddTimeout info =>
      rw [timer.run]
      apply ih _ _ hf1
      rcases hk : t.timeouts info.Key with _ | j
      · rw [timer.AddTimeout_fresh t info hk]
        have hne : key ≠ info.Key := by
          intro he
          rw [he, hk] at h
          cases h
        simp [hne, h]
      · rw [timer.AddTimeout_pending t info j hk]
        exact h
    | FireTimeout k =>
      rw [timer.run]
      apply ih _ _ hf1
      have hne : key ≠ k := by
        intro he
        apply hf
        rw [he]
        exact List.mem_cons_self _ _
      rcases hk : t.timeouts k with _ | j
      · rw [timer.FireTimeout_absent t k hk]
        exact h
      · rw [timer.FireTimeout_pending t k j hk]
        simp [hne, h]

/-- C6. `AddTimeout(info)` returns true exactly when no timeout with key
`info.Key()` is pending; when it returns true the registry maps that key to
`info`, every other key is as before and nothing is dispatched; when it
returns false the registry is unchanged; and a second `AddTimeout` with the
same key, after any calls that do not fire that key, returns false and keeps
the info registered first, the first call having returned true when the key
was not pending. -/
theorem C6_add_timeout_once :
    (∀ (t : timer) (info : TimeoutInfo),
      ((t.AddTimeout info).1 = true ↔ t.timeouts info.Key = none))
    ∧ (∀ (t : timer) (info : TimeoutInfo), (t.AddTimeout info).1 = true →
        (t.AddTimeout info).2.timeouts info.Key = some info
        ∧ (∀ k, k ≠ info.Key → (t.AddTimeout info).2.timeouts k = t.timeouts k)
        ∧ (t.AddTimeout info).2.outChan = t.outChan
        ∧ (t.AddTimeout info).2.senders = t.senders)
    ∧ (∀ (t : timer) (info : TimeoutInfo), (t.AddTimeout info).1 = false →
        (t.AddTimeout info).2 = t)
    ∧ (∀ (t : timer) (info1 info2 : TimeoutInfo) (between : List TimerOp),
        info2.Key = info1.Key → TimerOp.FireTimeout info1.Key ∉ between →
        ((timer.run (t.AddTimeout info1).2 between).AddTimeout info2).1 = false
        ∧ ((timer.run (t.AddTimeout info1).2 between).AddTimeout info2).2.timeouts info1.Key
            = (t.AddTimeout info1).2.timeouts info1.Key
        ∧ (t.timeouts info1.Key = none →
            (t.AddTimeout info1).1 = true
            ∧ ((timer.run (t.AddTimeout info1).2 between).AddTimeout info2).2.timeouts info1.Key
                = some info1)) := by
  refine ⟨?_, ?_, ?_, ?_⟩
  · intro t info
    rcases hk : t.timeouts info.Key with _ | j
    · rw [timer.AddTimeout_fresh t info hk]
      simp
    · rw [timer.AddTimeout_pending t info j hk]
      simp
  · intro t info h
    rcases hk : t.timeouts info.Key with _ | j
    · rw [timer.AddTimeout_fresh t info hk]
      refine ⟨by simp, ?_, rfl, rfl⟩
      intro k hne
      simp [hne]
    · rw [timer.AddTimeout_pending t info j hk] at h
      cases h
  · intro t info h
    rcases hk : t.timeouts info.Key with _ | j
    · rw [timer.AddTimeout_fresh t info hk] at h
      cases h
    · rw [timer.AddTimeout_pending t info j hk]
  · intro t info1 info2 between hkey hfire
    have hpend : ∃ i, (t.AddTimeout info1).2.timeouts info1.Key = some i := by
      rcases hk : t.timeouts info1.Key with _ | j
      · rw [timer.AddTimeout_fresh t info1 hk]
        exact ⟨info1, by simp⟩
      · rw [timer.AddTimeout_pending t info1 j hk]
        exact ⟨j, hk⟩
    obtain ⟨i, hi⟩ := hpend
    have hrun := timer.run_keeps_pending between _ info1.Key i hi hfire
    have hsecond := timer.AddTimeout_pending (timer.run (t.AddTimeout info1).2 between) info2 i
      (by rw [hkey]; exact hrun)
    rw [hsecond]
    refine ⟨rfl, ?_, ?_⟩
    · rw [hrun, hi]
    · intro hnone
      have hfresh := timer.AddTimeout_fresh t info1 hnone
      have hi1 : i = info1 := by
        rw [hfresh] at hi
        simpa using hi.symm
      refine ⟨by rw [hfresh], ?_⟩
      show (timer.run (t.AddTimeout info1).2 between).timeouts info1.Key = some info1
      rw [hrun, hi1]

/-- C6, on a new registry: the first `AddTimeout` for the key election
returns true, the second returns false, also with another key fired in
between. -/
theorem C6_add_timeout_once_witness :
    exTimeout.Key = exTimeout.Key
    ∧ TimerOp.FireTimeout exTimeout.Key ∉ [TimerOp.FireTimeout "heartbeat"]
    ∧ newTimer.timeouts exTimeout.Key = none
    ∧ (newTimer.AddTimeout exTimeout).1 = true
    ∧ ((timer.run (newTimer.AddTimeout exTimeout).2
          [TimerOp.FireTimeout "heartbeat"]).AddTimeout exTimeout).1 = false :=
  have h := C6_add_timeout_once.2.2.2 newTimer exTimeout exTimeout
    [TimerOp.FireTimeout "heartbeat"] rfl (by decide)
  ⟨rfl, by decide, rfl, (h.2.2 rfl).1, h.1⟩

/-- Erasing the last entry of a list that ends in `i`. -/
theorem eraseIdx_length_concat {α : Type} (l : List α) (i : α) :
    (l ++ [i]).eraseIdx l.length = l := by
  induction l with
  | nil => rfl
  | cons a l ih => simp [List.eraseIdx, ih]

/-- The spawned send of the newest goroutine, when the channel has room. -/
theorem timer.send_newest (tm : String → Option TimeoutInfo) (out snd : List TimeoutInfo)
    (i : TimeoutInfo) (h : out.length < 10) :
    timer.send { timeouts := tm, outChan := out, senders := snd ++ [i] } snd.length
      = { timeouts := tm, outChan := out ++ [i], senders := snd } := by
  simp [timer.send, h, eraseIdx_length_concat]

/-- C7. When key `k` is pending with info `i`, `FireTimeout(k)` removes `k`
from the registry, leaves every other key as it was, spawns exactly one send,
of `i`, to the delivery channel (which, run while the channel has room, puts
`i` on the channel and nothing else), and afterwards `AddTimeout` with key `k`
returns true and registers the new info. -/
theorem C7_fire_pending_delivers_once (t : timer) (k : String) (i : TimeoutInfo)
    (h : t.timeouts k = some i) :
    (t.FireTimeout k).timeouts k = none
    ∧ (∀ k1, k1 ≠ k → (t.FireTimeout k).timeouts k1 = t.timeouts k1)
    ∧ (t.FireTimeout k).senders = t.senders ++ [i]
    ∧ (t.FireTimeout k).outChan = t.outChan
    ∧ (t.outChan.length < 10 →
        ((t.FireTimeout k).send t.senders.length).outChan = t.outChan ++ [i]
        ∧ ((t.FireTimeout k).send t.senders.length).senders = t.senders)
    ∧ (∀ info : TimeoutInfo, info.Key = k →
        ((t.FireTimeout k).AddTimeout info).1 = true
        ∧ ((t.FireTimeout k).AddTimeout info).2.timeouts k = some info) := by
  rw [timer.FireTimeout_pending t k i h]
  refine ⟨by simp, ?_, rfl, rfl, ?_, ?_⟩
  · intro k1 hne
    simp [hne]
  · intro hlen
    rw [timer.send_newest _ _ _ _ hlen]
    exact ⟨rfl, rfl⟩
  · intro info hkey
    subst hkey
    rw [timer.AddTimeout_fresh _ info (by simp)]
    simp

/-- C7, on the registry that holds the key election: firing it dispatches
that timeout, and the key can be added again. -/
theorem C7_fire_pending_delivers_once_witness :
    (newTimer.AddTimeout exTimeout).2.timeouts "election" = some exTimeout
    ∧ ((newTimer.AddTimeout exTimeout).2.FireTimeout "election").timeouts "election" = none
    ∧ ((newTimer.AddTimeout exTimeout).2.FireTimeout "election").senders = [exTimeout]
    ∧ (((newTimer.AddTimeout exTimeout).2.FireTimeout "election").send 0).outChan = [exTimeout]
    ∧ (((newTimer.AddTimeout exTimeout).2.FireTimeout "election").AddTimeout exTimeout).1
        = true :=
  have h := C7_fire_pending_delivers_once (newTimer.AddTimeout exTimeout).2 "election"
    exTimeout rfl
  ⟨rfl, h.1, h.2.2.1, (h.2.2.2.2.1 (by decide)).1, (h.2.2.2.2.2 exTimeout rfl).1⟩

/-- C8. When key `k` is not pending, `FireTimeout(k)` returns the registry
unchanged: same pending set, nothing dispatched; and on every registry,
calling `FireTimeout(k)` twice in a row gives the registry, channel and
dispatched sends of calling it once. -/
theorem C8_fire_unknown_is_noop :
    (∀ (t : timer) (k : String), t.timeouts k = none →
        t.FireTimeout k = t
        ∧ (∀ k1, (t.FireTimeout k).timeouts k1 = t.timeouts k1)
        ∧ (t.FireTimeout k).senders = t.senders
        ∧ (t.FireTimeout k).outChan = t.outChan)
    ∧ (∀ (t : timer) (k : String), (t.FireTimeout k).FireTimeout k = t.FireTimeout k) := by
  constructor
  · intro t k h
    rw [timer.FireTimeout_absent t k h]
    exact ⟨rfl, fun _ => rfl, rfl, rfl⟩
  · intro t k
    rcases hk : t.timeouts k with _ | i
    · rw [timer.FireTimeout_absent t k hk, timer.FireTimeout_absent t k hk]
    · rw [timer.FireTimeout_pending t k i hk]
      exact timer.FireTimeout_absent _ k (by simp)

/-- C8, on a new registry: firing the key election changes nothing. -/
theorem C8_fire_unknown_is_noop_witness :
    newTimer.timeouts "election" = none
    ∧ (newTimer.FireTimeout "election").senders = []
    ∧ (newTimer.FireTimeout "election").outChan = [] :=
  have h := C8_fire_unknown_is_noop.1 newTimer "election" rfl
  ⟨rfl, h.2.2.1, h.2.2.2⟩

/-! ## The runtime's timer method -/

/-- The method `PublishEvent` changes only the list of requests. -/
theorem ReplicaClient.PublishEvent_frame (env : Env) (c : ReplicaClient) (t : String)
    (params : List (String × String)) :
    ∃ l, c.PublishEvent env t params = { c with masterClient := l } :=
  ReplicaClient.sendMasterMessage_frame env c _

/-- The method `PublishEvent`, when the request can be built, hands exactly
one request to the controller client: the event, on the route `/event`. -/
theorem ReplicaClient.PublishEvent_log (env : Env) (c : ReplicaClient) (t : String)
    (params : List (String × String))
    (h : env.NewRequest ("http://" ++ c.config.NetrixAddr ++ "/event") = none) :
    c.PublishEvent env t params
      = { c with masterClient := c.masterClient ++
            [{ addr := "http://" ++ c.config.NetrixAddr ++ "/event"
               body := .Event (some
                 { Type_ := t, Replica := c.config.ReplicaID, Params := params,
                   Timestamp := env.now }) }] } := by
  unfold ReplicaClient.PublishEvent ReplicaClient.sendMasterMessage
  have hm : ∀ e : Option event,
      marshalRoute { Type_ := "Event", Event := e } = (.Event e, "/event") := fun _ => rfl
  simp only [hm, h, marshalErr]
  split
  · rfl
  · split <;> rfl

/-- C9. When no timeout with key `i.Key()` is pending, `StartTimer(i)`
registers `i` and makes exactly one `PublishEvent` call, of type
"TimeoutStart" with parameters type = `i.Key()` and duration =
`i.Duration().String()`, which (the request being well formed) hands exactly
one request to the controller and spawns nothing; when one is pending,
`StartTimer(i)` leaves the runtime as it was. So two `StartTimer` calls with
the same key leave the first info pending and one event in all, and a
following `FireTimeout` of the key dispatches exactly that info. -/
theorem C9_start_timer_event_once :
    (∀ (env : Env) (c : ReplicaClient) (i : TimeoutInfo), c.timer.timeouts i.Key = none →
        c.StartTimer env i
          = ReplicaClient.PublishEvent env { c with timer := (c.timer.AddTimeout i).2 }
              "TimeoutStart" [("type", i.Key), ("duration", env.DurationString i.Duration)]
        ∧ (c.StartTimer env i).timer.timeouts i.Key = some i
        ∧ (c.StartTimer env i).goroutines = c.goroutines
        ∧ (env.NewRequest ("http://" ++ c.config.NetrixAddr ++ "/event") = none →
            (c.StartTimer env i).masterClient = c.masterClient ++
              [{ addr := "http://" ++ c.config.NetrixAddr ++ "/event"
                 body := .Event (some
                   { Type_ := "TimeoutStart", Replica := c.config.ReplicaID,
                     Params := [("type", i.Key), ("duration", env.DurationString i.Duration)],
                     Timestamp := env.now }) }]))
    ∧ (∀ (env : Env) (c : ReplicaClient) (i : TimeoutInfo), c.timer.timeouts i.Key ≠ none →
        c.StartTimer env i = c)
    ∧ (∀ (env1 env2 : Env) (c : ReplicaClient) (i1 i2 : TimeoutInfo), i2.Key = i1.Key →
        c.timer.timeouts i1.Key = none →
        env1.NewRequest ("http://" ++ c.config.NetrixAddr ++ "/event") = none →
        ((c.StartTimer env1 i1).StartTimer env2 i2) = c.StartTimer env1 i1
        ∧ ((c.StartTimer env1 i1).StartTimer env2 i2).timer.timeouts i1.Key = some i1
        ∧ (∀ k, k ≠ i1.Key →
            ((c.StartTimer env1 i1).StartTimer env2 i2).timer.timeouts k = c.timer.timeouts k)
        ∧ ((c.StartTimer env1 i1).StartTimer env2 i2).masterClient = c.masterClient ++
            [{ addr := "http://" ++ c.config.NetrixAddr ++ "/event"
               body := .Event (some
                 { Type_ := "TimeoutStart", Replica := c.config.ReplicaID,
                   Params := [("type", i1.Key), ("duration", env1.DurationString i1.Duration)],
                   Timestamp := env1.now }) }]
        ∧ (((c.StartTimer env1 i1).StartTimer env2 i2).timer.FireTimeout i1.Key).senders
            = c.timer.senders ++ [i1]
        ∧ (((c.StartTimer env1 i1).StartTimer env2 i2).timer.FireTimeout i1.Key).timeouts i1.Key
            = none) := by
  have hfresh : ∀ (env : Env) (c : ReplicaClient) (i : TimeoutInfo),
      c.timer.timeouts i.Key = none →
      c.StartTimer env i
        = ReplicaClient.PublishEvent env { c with timer := (c.timer.AddTimeout i).2 }
            "TimeoutStart" [("type", i.Key), ("duration", env.DurationString i.Duration)] := by
    intro env c i h
    unfold ReplicaClient.StartTimer
    simp [timer.AddTimeout_fresh c.timer i h, TimeoutStartEventType]
  have hpend : ∀ (env : Env) (c : ReplicaClient) (i : TimeoutInfo),
      c.timer.timeouts i.Key ≠ none → c.StartTimer env i = c := by
    intro env c i h
    rcases hk : c.timer.timeouts i.Key with _ | j
    · exact absurd hk h
    · unfold ReplicaClient.StartTimer
      simp [timer.AddTimeout_pending c.timer i j hk]
  have htimer : ∀ (env : Env) (c : ReplicaClient) (i : TimeoutInfo),
      c.timer.timeouts i.Key = none →
      (c.StartTimer env i).timer
        = { c.timer with
            timeouts := fun k => if k = i.Key then some i else c.timer.timeouts k }
      ∧ (c.StartTimer env i).goroutines = c.goroutines := by
    intro env c i h
    rw [hfresh env c i h]
    obtain ⟨l, hl⟩ := ReplicaClient.PublishEvent_frame env
      { c with timer := (c.timer.AddTimeout i).2 }
      "TimeoutStart" [("type", i.Key), ("duration", env.DurationString i.Duration)]
    rw [hl, timer.AddTimeout_fresh c.timer i h]
    exact ⟨rfl, rfl⟩
  have hlog : ∀ (env : Env) (c : ReplicaClient) (i : TimeoutInfo),
      c.timer.timeouts i.Key = none →
      env.NewRequest ("http://" ++ c.config.NetrixAddr ++ "/event") = none →
      (c.StartTimer env i).masterClient = c.masterClient ++
        [{ addr := "http://" ++ c.config.NetrixAddr ++ "/event"
           body := .Event (some
             { Type_ := "TimeoutStart", Replica := c.config.ReplicaID,
               Params := [("type", i.Key), ("duration", env.DurationString i.Duration)],
               Timestamp := env.now }) }] := by
    intro env c i h hreq
    rw [hfresh env c i h,
      ReplicaClient.PublishEvent_log env { c with timer := (c.timer.AddTimeout i).2 } _ _ hreq]
  refine ⟨?_, hpend, ?_⟩
  · intro env c i h
    refine ⟨hfresh env c i h, ?_, (htimer env c i h).2, hlog env c i h⟩
    rw [(htimer env c i h).1]
    simp
  · intro env1 env2 c i1 i2 hkey h hreq
    have ht := (htimer env1 c i1 h).1
    have hp1 : (c.StartTimer env1 i1).timer.timeouts i1.Key = some i1 := by
      rw [ht]
      simp
    have hsecond : (c.StartTimer env1 i1).StartTimer env2 i2 = c.StartTimer env1 i1 := by
      apply hpend
      rw [hkey, hp1]
      simp
    rw [hsecond]
    refine ⟨rfl, hp1, ?_, hlog env1 c i1 h hreq, ?_, ?_⟩
    · intro k hne
      rw [ht]
      simp [hne]
    · rw [timer.FireTimeout_pending _ _ i1 hp1, ht]
    · rw [timer.FireTimeout_pending _ _ i1 hp1]
      simp

/-- C9, on the runtime of replica r1: two `StartTimer` calls with the key
election send one event and keep one pending timeout, and firing the key
dispatches one item. -/
theorem C9_start_timer_event_once_witness :
    exTimeout.Key = exTimeout.Key
    ∧ exClient.timer.timeouts exTimeout.Key = none
    ∧ exEnv.NewRequest ("http://" ++ exClient.config.NetrixAddr ++ "/event") = none
    ∧ ((exClient.StartTimer exEnv exTimeout).StartTimer exEnv exTimeout).masterClient
        = [{ addr := "http://ctrl:9000/event"
             body := .Event (some
               { Type_ := "TimeoutStart", Replica := "r1",
                 Params := [("type", "election"), ("duration", "5s")],
                 Timestamp := 1700000000 }) }]
    ∧ (((exClient.StartTimer exEnv exTimeout).StartTimer exEnv exTimeout).timer.FireTimeout
          "election").senders = [exTimeout] :=
  have h := C9_start_timer_event_once.2.2 exEnv exEnv exClient exTimeout exTimeout rfl rfl rfl
  ⟨rfl, rfl, rfl, by rw [h.2.2.2.1]; decide, h.2.2.2.2.1⟩

/-! ## The identifier generator: identifiers do not repeat -/

/-- Reading one more digit. -/
theorem decValue_concat (xs : List Char) (c : Char) :
    decValue (xs ++ [c]) = 10 * decValue xs + (c.toNat - 48) := by
  simp [decValue, List.foldl_append]

/-- The character of a decimal digit denotes that digit and is neither an
underscore nor a minus sign. -/
theorem digitChar_digit (m : Nat) (h : m < 10) :
    (Nat.digitChar m).toNat - 48 = m ∧ Nat.digitChar m ≠ '_' ∧ Nat.digitChar m ≠ '-' := by
  interval_cases m <;> decide

/-- The digits `Nat.toDigitsCore` puts in front of its accumulator denote the
number printed and are decimal digits, at least one. -/
theorem toDigitsCore_digits (fuel : Nat) :
    ∀ (n : Nat) (ds : List Char), n < fuel →
      ∃ xs, Nat.toDigitsCore 10 fuel n ds = xs ++ ds ∧ decValue xs = n
        ∧ (∀ c ∈ xs, c ≠ '_' ∧ c ≠ '-') ∧ xs ≠ [] := by
  induction fuel with
  | zero => intro n ds h; omega
  | succ fuel ih =>
    intro n ds h
    have hd := digitChar_digit (n % 10) (Nat.mod_lt _ (by decide))
    rw [Nat.toDigitsCore]
    split
    · next h0 =>
      refine ⟨[Nat.digitChar (n % 10)], rfl, ?_, ?_, by simp⟩
      · have hv := decValue_concat [] (Nat.digitChar (n % 10))
        simp only [List.nil_append] at hv
        rw [hv, hd.1]
        simp only [decValue, List.foldl_nil]
        omega
      · intro c hc
        simp only [List.mem_singleton] at hc
        subst hc
        exact hd.2
    · next h0 =>
      obtain ⟨xs, hxs, hv, hc, _⟩ := ih (n / 10) (Nat.digitChar (n % 10) :: ds) (by omega)
      refine ⟨xs ++ [Nat.digitChar (n % 10)], ?_, ?_, ?_, by simp⟩
      · rw [hxs]
        simp
      · rw [decValue_concat, hv, hd.1]
        omega
      · intro c hmem
        rcases List.mem_append.mp hmem with h1 | h1
        · exact hc c h1
        · simp only [List.mem_singleton] at h1
          subst h1
          exact hd.2

/-- The characters of `Nat.repr n` denote `n` and are decimal digits, at
least one. -/
theorem natRepr_digits (n : Nat) :
    decValue (Nat.repr n).data = n ∧ (∀ c ∈ (Nat.repr n).data, c ≠ '_' ∧ c ≠ '-')
      ∧ (Nat.repr n).data ≠ [] := by
  obtain ⟨xs, hxs, hv, hc, hne⟩ := toDigitsCore_digits (n + 1) n [] (by omega)
  have hdata : (Nat.repr n).data = xs := by
    simp [Nat.repr, Nat.toDigits, hxs, List.asString]
  rw [hdata]
  exact ⟨hv, hc, hne⟩

/-- The characters `%d` prints for an integer: the digits of a natural number,
or a minus sign and the digits of its opposite. -/
theorem intToString_data (i : Int) :
    (∃ n : Nat, i = n ∧ (toString i).data = (Nat.repr n).data)
    ∨ (∃ n : Nat, i = Int.negSucc n ∧ (toString i).data = '-' :: (Nat.repr (n + 1)).data) := by
  cases i with
  | ofNat n => exact Or.inl ⟨n, rfl, rfl⟩
  | negSucc n => exact Or.inr ⟨n, rfl, rfl⟩

/-- No underscore is printed for an integer. -/
theorem intToString_no_underscore (i : Int) : '_' ∉ (toString i).data := by
  rcases intToString_data i with ⟨n, _, hd⟩ | ⟨n, _, hd⟩
  · rw [hd]
    intro hmem
    exact ((natRepr_digits n).2.1 _ hmem).1 rfl
  · rw [hd]
    intro hmem
    rcases List.mem_cons.mp hmem with h1 | h1
    · exact absurd h1 (by decide)
    · exact ((natRepr_digits (n + 1)).2.1 _ h1).1 rfl

/-- Two integers printed alike are equal. -/
theorem intToString_inj (i j : Int) (h : toString i = toString j) : i = j := by
  have hdata : (toString i).data = (toString j).data := by rw [h]
  rcases intToString_data i with ⟨n, hi, hd⟩ | ⟨n, hi, hd⟩ <;>
    rcases intToString_data j with ⟨m, hj, he⟩ | ⟨m, hj, he⟩
  · rw [hd, he] at hdata
    have hv := congrArg decValue hdata
    rw [(natRepr_digits n).1, (natRepr_digits m).1] at hv
    rw [hi, hj, hv]
  · rw [hd, he] at hdata
    have hmem : '-' ∈ (Nat.repr n).data := by
      rw [hdata]
      exact List.mem_cons_self _ _
    exact absurd rfl ((natRepr_digits n).2.1 _ hmem).2
  · rw [hd, he] at hdata
    have hmem : '-' ∈ (Nat.repr m).data := by
      rw [← hdata]
      exact List.mem_cons_self _ _
    exact absurd rfl ((natRepr_digits m).2.1 _ hmem).2
  · rw [hd, he] at hdata
    have ht := List.tail_eq_of_cons_eq hdata
    have hv := congrArg decValue ht
    rw [(natRepr_digits (n + 1)).1, (natRepr_digits (m + 1)).1] at hv
    have hnm : n = m := by omega
    rw [hi, hj, hnm]

/-- What follows the last occurrence of a character is determined by the
list. -/
theorem after_last_eq {α : Type} (c : α) (a b x y : List α) (hx : c ∉ x) (hy : c ∉ y)
    (h : a ++ c :: x = b ++ c :: y) : x = y := by
  rcases List.append_eq_append_iff.mp h with ⟨a1, _, h1⟩ | ⟨b1, _, h1⟩
  · cases a1 with
    | nil =>
      simp only [List.nil_append] at h1
      exact List.tail_eq_of_cons_eq h1
    | cons d a2 =>
      simp only [List.cons_append, List.cons.injEq] at h1
      exact absurd (by rw [h1.2]; simp) hx
  · cases b1 with
    | nil =>
      simp only [List.nil_append] at h1
      exact (List.tail_eq_of_cons_eq h1).symm
    | cons d b2 =>
      simp only [List.cons_append, List.cons.injEq] at h1
      exact absurd (by rw [h1.2]; simp) hy

/-- The number printed at the end of an identifier is determined by the
identifier, whatever the two replica ids are. -/
theorem sprintfID_suffix_inj (f1 t1 f2 t2 : String) (n1 n2 : Int)
    (h : sprintfID f1 t1 n1 = sprintfID f2 t2 n2) : n1 = n2 := by
  have hdata := congrArg String.data h
  simp only [sprintfID, String.data_append] at hdata
  simp only [List.append_assoc, List.singleton_append] at hdata
  have hdata2 : (f1.data ++ '_' :: t1.data) ++ '_' :: (toString n1).data
      = (f2.data ++ '_' :: t2.data) ++ '_' :: (toString n2).data := by
    simpa [List.append_assoc] using hdata
  have hs := after_last_eq '_' _ _ _ _ (intToString_no_underscore n1)
    (intToString_no_underscore n2) hdata2
  exact intToString_inj n1 n2 (String.ext hs)

/-! ## The identifier generator: the counter -/

/-- An integer of the range of `int` is its own wrapped value. -/
theorem wrapInt_of_inRange (x : Int) (h1 : -9223372036854775808 ≤ x)
    (h2 : x < 9223372036854775808) : wrapInt x = x := by
  unfold wrapInt
  omega

/-- A wrapped value is in the range of `int`. -/
theorem wrapInt_inRange (x : Int) :
    -9223372036854775808 ≤ wrapInt x ∧ wrapInt x < 9223372036854775808 := by
  unfold wrapInt
  omega

/-- Increments that wrap add up. -/
theorem wrapInt_shift (c : Int) (k : Nat) :
    wrapInt (wrapInt (c + 1) + k) = wrapInt (c + ((k + 1 : Nat) : Int)) := by
  unfold wrapInt
  push_cast
  omega

/-- Two counter values fewer than 2^64 increments apart differ. -/
theorem wrapInt_ne (c : Int) (k k1 : Nat) (h : k < k1) (h1 : k1 < 18446744073709551616) :
    wrapInt (c + k) ≠ wrapInt (c + k1) := by
  unfold wrapInt
  omega

/-- The method `NextID` in terms of the counter value. -/
theorem Counter.NextID_eq (id : Counter) (from_ to_ : String) :
    id.NextID from_ to_
      = (from_ ++ "_" ++ to_ ++ "_" ++ toString id.counter,
          { counter := wrapInt (id.counter + 1) }) :=
  rfl

/-- After a run of `Next` and `NextID` calls the counter is the wrapped sum of
its first value and the number of calls. -/
theorem Counter.runOps_counter (ops : List CounterOp) :
    ∀ id : Counter, id.InRange →
      (Counter.runOps id ops).2.counter = wrapInt (id.counter + ops.length) := by
  induction ops with
  | nil =>
    intro id h
    simp only [Counter.runOps, List.length_nil, Nat.cast_zero, add_zero]
    exact (wrapInt_of_inRange _ h.1 h.2).symm
  | cons op ops ih =>
    intro id h
    have hstep : (Counter.runOps id (op :: ops)).2
        = (Counter.runOps { counter := wrapInt (id.counter + 1) } ops).2 := by
      cases op <;> rfl
    have hr1 : Counter.InRange { counter := wrapInt (id.counter + 1) } := wrapInt_inRange _
    rw [hstep, ih { counter := wrapInt (id.counter + 1) } hr1]
    exact wrapInt_shift id.counter ops.length

/-- A run of `NextID` calls is a run of calls in which no `Next` occurs. -/
theorem Counter.runNextID_eq_runOps (calls : List (String × String)) :
    ∀ id : Counter, Counter.runNextID id calls
      = Counter.runOps id (calls.map (fun p => CounterOp.NextID p.1 p.2)) := by
  induction calls with
  | nil => intro id; rfl
  | cons p calls ih =>
    intro id
    obtain ⟨f, t⟩ := p
    rw [Counter.runNextID, List.map_cons, Counter.runOps, ih]

/-- A natural number and its cast to an integer print the same digits. -/
theorem toString_natCast (n : Nat) : toString (n : Int) = toString n :=
  rfl

/-- Every identifier of a run carries the wrapped sum of the counter the run
started from and the number of calls made before its own. -/
theorem Counter.runOps_mem (ops : List CounterOp) :
    ∀ (c : Int) (s : String), Counter.InRange { counter := c } →
      s ∈ (Counter.runOps { counter := c } ops).1 →
      ∃ (f t : String) (k : Nat), k < ops.length ∧ s = sprintfID f t (wrapInt (c + k)) := by
  induction ops with
  | nil =>
    intro c s _ h
    simp [Counter.runOps] at h
  | cons op ops ih =>
    intro c s hr h
    have hr1 : Counter.InRange { counter := wrapInt (c + 1) } := wrapInt_inRange _
    have hrest : ∀ s1, s1 ∈ (Counter.runOps { counter := wrapInt (c + 1) } ops).1 →
        ∃ (f t : String) (k : Nat), k < (op :: ops).length
          ∧ s1 = sprintfID f t (wrapInt (c + k)) := by
      intro s1 h1
      obtain ⟨f, t, k, hk, hs⟩ := ih _ s1 hr1 h1
      refine ⟨f, t, k + 1, by simp only [List.length_cons]; omega, ?_⟩
      rw [hs, wrapInt_shift]
    cases op with
    | Next => exact hrest s h
    | NextID from_ to_ =>
      have hrun : (Counter.runOps { counter := c } (CounterOp.NextID from_ to_ :: ops)).1
          = sprintfID from_ to_ c
            :: (Counter.runOps { counter := wrapInt (c + 1) } ops).1 := rfl
      rw [hrun] at h
      rcases List.mem_cons.mp h with h | h
      · refine ⟨from_, to_, 0, by simp, ?_⟩
        rw [h, Nat.cast_zero, add_zero, wrapInt_of_inRange _ hr.1 hr.2]
      · exact hrest s h

/-- In a run, an identifier returned earlier carries the wrapped counter of an
earlier call. -/
theorem Counter.runOps_indexed (ops : List CounterOp) :
    ∀ c : Int, Counter.InRange { counter := c } →
      (Counter.runOps { counter := c } ops).1.Pairwise
        (fun a b => ∃ (f t : String) (k : Nat) (f1 t1 : String) (k1 : Nat),
          a = sprintfID f t (wrapInt (c + k))
          ∧ b = sprintfID f1 t1 (wrapInt (c + k1)) ∧ k < k1 ∧ k1 < ops.length) := by
  induction ops with
  | nil =>
    intro c _
    simp [Counter.runOps]
  | cons op ops ih =>
    intro c hr
    have hr1 : Counter.InRange { counter := wrapInt (c + 1) } := wrapInt_inRange _
    have hrest : (Counter.runOps { counter := wrapInt (c + 1) } ops).1.Pairwise
        (fun a b => ∃ (f t : String) (k : Nat) (f1 t1 : String) (k1 : Nat),
          a = sprintfID f t (wrapInt (c + k))
          ∧ b = sprintfID f1 t1 (wrapInt (c + k1)) ∧ k < k1 ∧ k1 < (op :: ops).length) := by
      refine List.Pairwise.imp ?_ (ih _ hr1)
      rintro a b ⟨f, t, k, f1, t1, k1, ha, hb, hlt, hlen⟩
      refine ⟨f, t, k + 1, f1, t1, k1 + 1, ?_, ?_, by omega,
        by simp only [List.length_cons]; omega⟩
      · rw [ha, wrapInt_shift]
      · rw [hb, wrapInt_shift]
    cases op with
    | Next => exact hrest
    | NextID from_ to_ =>
      have hrun : (Counter.runOps { counter := c } (CounterOp.NextID from_ to_ :: ops)).1
          = sprintfID from_ to_ c
            :: (Counter.runOps { counter := wrapInt (c + 1) } ops).1 := rfl
      rw [hrun]
      refine List.Pairwise.cons ?_ hrest
      intro b hb
      obtain ⟨f1, t1, k1, hk1, hs⟩ := Counter.runOps_mem ops _ b hr1 hb
      refine ⟨from_, to_, 0, f1, t1, k1 + 1, ?_, ?_, by omega,
        by simp only [List.length_cons]; omega⟩
      · rw [Nat.cast_zero, add_zero, wrapInt_of_inRange _ hr.1 hr.2]
      · rw [hs, wrapInt_shift]

/-- The identifier returned by `NextID` after a run of calls on a new
counter carries the wrapped number of those calls. -/
theorem Counter.NextID_after_run (id : Counter) (h0 : id.counter = 0)
    (ops : List CounterOp) (from_ to_ : String) :
    ((Counter.runOps id ops).2.NextID from_ to_).1
      = sprintfID from_ to_ (wrapInt ops.length) := by
  have hr : id.InRange := by
    unfold Counter.InRange
    omega
  have hc := Counter.runOps_counter ops id hr
  rw [h0, zero_add] at hc
  rw [Counter.NextID_eq, hc]
  rfl

/-- C10, as stated, fails on a new counter. After one direct call of `Next()`
the first call of `NextID` returns the suffix 1, not 0. And after 2^63 calls
of `NextID` the next one returns the identifier that carries
-9223372036854775808, not the one that carries 2^63, because the increment
of the largest `int` wraps to the smallest. -/
theorem C10_next_id_not_kth_call :
    ((Counter.runOps NewCounter [CounterOp.Next]).2.NextID "r1" "r2").1 = "r1_r2_1"
    ∧ ((Counter.runOps NewCounter [CounterOp.Next]).2.NextID "r1" "r2").1
        ≠ "r1" ++ "_" ++ "r2" ++ "_" ++ toString (0 : Nat)
    ∧ (Counter.Next { counter := 9223372036854775807 }).2.counter = -9223372036854775808
    ∧ ((Counter.runNextID NewCounter
          (List.replicate 9223372036854775808 ("r1", "r2"))).2.NextID "r1" "r2").1
        = sprintfID "r1" "r2" (-9223372036854775808)
    ∧ ((Counter.runNextID NewCounter
          (List.replicate 9223372036854775808 ("r1", "r2"))).2.NextID "r1" "r2").1
        ≠ sprintfID "r1" "r2" 9223372036854775808 := by
  have hwrap : ((Counter.runNextID NewCounter
      (List.replicate 9223372036854775808 ("r1", "r2"))).2.NextID "r1" "r2").1
      = sprintfID "r1" "r2" (-9223372036854775808) := by
    rw [Counter.runNextID_eq_runOps, Counter.NextID_after_run NewCounter rfl,
      List.length_map, List.length_replicate]
    exact congrArg (sprintfID "r1" "r2") (by decide)
  refine ⟨by decide, by decide, by decide, hwrap, ?_⟩
  rw [hwrap]
  intro h
  exact absurd (sprintfID_suffix_inj _ _ _ _ _ _ h) (by decide)

/-- C10, amended. `Next()` returns the current counter value and sets the
counter to the next value of `int`, which is one more except at the largest
`int`; `Reset()` sets it to zero; and a call of `NextID` made after j calls
of `Next()` or `NextID`, with j below 2^63, on a new counter or on one just
reset, returns `from`, "_", `to`, "_" and the decimal digits of j. So the
k-th call of `NextID`, with k at most 2^63 and no direct call of `Next()`
before it, returns the digits of k - 1. -/
theorem C10_next_id_after_calls :
    (∀ id : Counter, id.Next = (id.counter, { counter := wrapInt (id.counter + 1) }))
    ∧ (∀ id : Counter, id.InRange → id.counter < 9223372036854775807 →
        id.Next.2.counter = id.counter + 1)
    ∧ (∀ id : Counter, id.Reset.counter = 0)
    ∧ NewCounter.counter = 0
    ∧ (∀ (earlier : List CounterOp) (from_ to_ : String),
        earlier.length < 9223372036854775808 →
        ((Counter.runOps NewCounter earlier).2.NextID from_ to_).1
          = from_ ++ "_" ++ to_ ++ "_" ++ toString earlier.length)
    ∧ (∀ (id : Counter) (earlier : List CounterOp) (from_ to_ : String),
        earlier.length < 9223372036854775808 →
        ((Counter.runOps id.Reset earlier).2.NextID from_ to_).1
          = from_ ++ "_" ++ to_ ++ "_" ++ toString earlier.length)
    ∧ (∀ (earlier : List (String × String)) (from_ to_ : String),
        earlier.length < 9223372036854775808 →
        ((Counter.runNextID NewCounter earlier).2.NextID from_ to_).1
          = from_ ++ "_" ++ to_ ++ "_" ++ toString earlier.length)
    ∧ (∀ (id : Counter) (earlier : List (String × String)) (from_ to_ : String),
        earlier.length < 9223372036854775808 →
        ((Counter.runNextID id.Reset earlier).2.NextID from_ to_).1
          = from_ ++ "_" ++ to_ ++ "_" ++ toString earlier.length) := by
  have hk : ∀ (id : Counter) (earlier : List CounterOp) (from_ to_ : String),
      id.counter = 0 → earlier.length < 9223372036854775808 →
      ((Counter.runOps id earlier).2.NextID from_ to_).1
        = from_ ++ "_" ++ to_ ++ "_" ++ toString earlier.length := by
    intro id earlier from_ to_ h0 hlen
    rw [Counter.NextID_after_run id h0, wrapInt_of_inRange _ (by omega) (by omega)]
    show from_ ++ "_" ++ to_ ++ "_" ++ toString ((earlier.length : Nat) : Int) = _
    rw [toString_natCast]
  have hk2 : ∀ (id : Counter) (earlier : List (String × String)) (from_ to_ : String),
      id.counter = 0 → earlier.length < 9223372036854775808 →
      ((Counter.runNextID id earlier).2.NextID from_ to_).1
        = from_ ++ "_" ++ to_ ++ "_" ++ toString earlier.length := by
    intro id earlier from_ to_ h0 hlen
    have h := hk id (earlier.map (fun p => CounterOp.NextID p.1 p.2)) from_ to_ h0
      (by rw [List.length_map]; exact hlen)
    rw [List.length_map] at h
    rw [Counter.runNextID_eq_runOps]
    exact h
  refine ⟨fun _ => rfl, ?_, fun _ => rfl, rfl, fun earlier from_ to_ h => hk _ earlier from_ to_ rfl h,
    fun id earlier from_ to_ h => hk _ earlier from_ to_ rfl h,
    fun earlier from_ to_ h => hk2 _ earlier from_ to_ rfl h,
    fun id earlier from_ to_ h => hk2 _ earlier from_ to_ rfl h⟩
  intro id hr hmax
  have h1 := hr.1
  show wrapInt (id.counter + 1) = id.counter + 1
  exact wrapInt_of_inRange _ (by omega) (by omega)

/-- C10, amended, on a new counter: after one `Next()` and one `NextID`, the
next `NextID` returns the suffix 2. -/
theorem C10_next_id_after_calls_witness :
    [CounterOp.Next, CounterOp.NextID "r1" "r3"].length < 9223372036854775808
    ∧ ((Counter.runOps NewCounter
          [CounterOp.Next, CounterOp.NextID "r1" "r3"]).2.NextID "r1" "r2").1 = "r1_r2_2" :=
  ⟨by decide,
   C10_next_id_after_calls.2.2.2.2.1 [CounterOp.Next, CounterOp.NextID "r1" "r3"] "r1" "r2"
     (by decide)⟩

/-- C11, as stated, fails on a new counter. The `NextID` call made after
2^63 - 1 calls returns the suffix 9223372036854775807 and the one after it
the suffix -9223372036854775808, which is smaller. And in a run of 2^64
calls of `NextID("a", "b")` the first call returns the string that the call
made after the run returns again, with no `Reset()` in between. -/
theorem C11_identifiers_wrap_and_repeat :
    ((Counter.runNextID NewCounter
        (List.replicate 9223372036854775807 ("a", "b"))).2.NextID "a" "b").1
      = sprintfID "a" "b" 9223372036854775807
    ∧ ((Counter.runNextID NewCounter
        (List.replicate 9223372036854775808 ("a", "b"))).2.NextID "a" "b").1
      = sprintfID "a" "b" (-9223372036854775808)
    ∧ (-9223372036854775808 : Int) < 9223372036854775807
    ∧ (Counter.runNextID NewCounter
        (List.replicate 18446744073709551616 ("a", "b"))).1.head? = some (sprintfID "a" "b" 0)
    ∧ ((Counter.runNextID NewCounter
        (List.replicate 18446744073709551616 ("a", "b"))).2.NextID "a" "b").1
      = sprintfID "a" "b" 0 := by
  have hrun : ∀ n : Nat,
      ((Counter.runNextID NewCounter (List.replicate n ("a", "b"))).2.NextID "a" "b").1
        = sprintfID "a" "b" (wrapInt n) := by
    intro n
    rw [Counter.runNextID_eq_runOps, Counter.NextID_after_run NewCounter rfl,
      List.length_map, List.length_replicate]
  refine ⟨?_, ?_, by decide, ?_, ?_⟩
  · rw [hrun]
    exact congrArg (sprintfID "a" "b") (by decide)
  · rw [hrun]
    exact congrArg (sprintfID "a" "b") (by decide)
  · rw [show (18446744073709551616 : Nat) = 18446744073709551615 + 1 from rfl,
      List.replicate_succ, Counter.runNextID]
    rfl
  · rw [hrun]
    exact congrArg (sprintfID "a" "b") (by decide)

/-- C11, amended. Identifiers that carry different numbers are different
strings, whatever replica ids they are built from (underscores included). In
a run of `Next` and `NextID` calls on one counter with no `Reset`, the
numbers carried by the identifiers returned increase strictly from call to
call as long as the counter does not pass the largest `int`; and when the
run has at most 2^64 calls, no two `NextID` calls of it return the same
string. -/
theorem C11_identifiers_never_repeat :
    (∀ (f1 t1 f2 t2 : String) (n1 n2 : Int), n1 ≠ n2 →
        sprintfID f1 t1 n1 ≠ sprintfID f2 t2 n2)
    ∧ (∀ (id : Counter) (ops : List CounterOp), id.InRange →
        id.counter + ops.length ≤ 9223372036854775808 →
        (Counter.runOps id ops).1.Pairwise
          (fun a b => ∃ f t n f1 t1 n1,
            a = sprintfID f t n ∧ b = sprintfID f1 t1 n1 ∧ id.counter ≤ n ∧ n < n1))
    ∧ (∀ (id : Counter) (ops : List CounterOp), id.InRange →
        ops.length ≤ 18446744073709551616 → (Counter.runOps id ops).1.Nodup) := by
  refine ⟨?_, ?_, ?_⟩
  · intro f1 t1 f2 t2 n1 n2 hne h
    exact hne (sprintfID_suffix_inj f1 t1 f2 t2 n1 n2 h)
  · intro id ops hr hmax
    obtain ⟨c⟩ := id
    refine List.Pairwise.imp ?_ (Counter.runOps_indexed ops c hr)
    rintro a b ⟨f, t, k, f1, t1, k1, ha, hb, hlt, hlen⟩
    have h1 := hr.1
    simp only at hmax h1
    have hk : wrapInt (c + k) = c + k := wrapInt_of_inRange _ (by omega) (by omega)
    have hk1 : wrapInt (c + k1) = c + k1 := wrapInt_of_inRange _ (by omega) (by omega)
    refine ⟨f, t, c + k, f1, t1, c + k1, by rw [ha, hk], by rw [hb, hk1], ?_, ?_⟩
    · simp only
      omega
    · omega
  · intro id ops hr hmax
    obtain ⟨c⟩ := id
    refine List.Pairwise.imp ?_ (Counter.runOps_indexed ops c hr)
    rintro a b ⟨f, t, k, f1, t1, k1, ha, hb, hlt, hlen⟩ hab
    rw [ha, hb] at hab
    exact wrapInt_ne c k k1 hlt (by omega) (sprintfID_suffix_inj _ _ _ _ _ _ hab)

/-- C11, amended, on a new counter: two `NextID` calls whose replica ids give
the same text before the number, with a `Next()` between them, return
different strings. -/
theorem C11_identifiers_never_repeat_witness :
    NewCounter.InRange
    ∧ [CounterOp.NextID "a_b" "c", CounterOp.Next, CounterOp.NextID "a" "b_c"].length
        ≤ 18446744073709551616
    ∧ (Counter.runOps NewCounter
        [CounterOp.NextID "a_b" "c", CounterOp.Next, CounterOp.NextID "a" "b_c"]).1
      = ["a_b_c_0", "a_b_c_2"]
    ∧ (Counter.runOps NewCounter
        [CounterOp.NextID "a_b" "c", CounterOp.Next, CounterOp.NextID "a" "b_c"]).1.Nodup :=
  ⟨⟨by decide, by decide⟩, by decide, by decide,
   C11_identifiers_never_repeat.2.2 NewCounter
     [CounterOp.NextID "a_b" "c", CounterOp.Next, CounterOp.NextID "a" "b_c"]
     ⟨by decide, by decide⟩ (by decide)⟩

/-! ## The runtime: relaying messages -/

/-- The method `sendMasterMessage`, when the body can be encoded and the
request can be built, hands exactly one request to the controller client. -/
theorem ReplicaClient.sendMasterMessage_log (env : Env) (c : ReplicaClient)
    (msg : masterRequest) (hm : marshalErr (marshalRoute msg).1 = none)
    (h : env.NewRequest ("http://" ++ c.config.NetrixAddr ++ (marshalRoute msg).2) = none) :
    (c.sendMasterMessage env msg).2
      = { c with masterClient := c.masterClient ++
            [{ addr := "http://" ++ c.config.NetrixAddr ++ (marshalRoute msg).2
               body := (marshalRoute msg).1 }] } := by
  unfold ReplicaClient.sendMasterMessage
  simp only [hm, h]
  split
  · rfl
  · split <;> rfl

/-- The method `SendMessage` on a runtime that is ready and not stopped, when
the request can be built: one relay request is handed to the controller
client, the counter takes its next value, and the rest of the runtime is unchanged
but for the tasks spawned. -/
theorem ReplicaClient.SendMessage_ready (env : Env) (c : ReplicaClient) (t to_ : String)
    (msg : List UInt8) (intercept : Bool) (hs : c.stopCh = false) (hr : c.ready = true)
    (hreq : env.NewRequest ("http://" ++ c.config.NetrixAddr ++ "/message") = none) :
    ∃ g, (c.SendMessage env t to_ msg intercept).2
      = { c with
          masterClient := c.masterClient ++
            [relayRequest c.config t to_ msg intercept c.counter.counter]
          counter := { counter := wrapInt (c.counter.counter + 1) }
          goroutines := g } := by
  obtain ⟨config, mq, started, stopCh, tm, ready, mc, counter, g, hc⟩ := c
  simp only at hs hr hreq
  subst hs hr
  have hm : ∀ m : Option Message,
      marshalRoute { Type_ := "InterceptedMessage", Message := m } = (.Message m, "/message") :=
    fun _ => rfl
  simp only [ReplicaClient.SendMessage, ReplicaClient.IsReady, Bool.false_eq_true, if_false,
    Bool.not_true, ReplicaClient.sendMasterMessage, hm, hreq, marshalErr]
  split
  · next err c2 h =>
    split at h
    · cases h
      exact ⟨g, rfl⟩
    · split at h
      · cases h
        exact ⟨g, rfl⟩
      · cases h
  · next c2 h =>
    split at h
    · cases h
    · split at h <;> cases h
      exact ⟨_, rfl⟩

/-- A run is made of its parts. -/
theorem ReplicaClient.runCalls_append (l1 l2 : List (Env × Call)) (c : ReplicaClient) :
    c.runCalls (l1 ++ l2) = (c.runCalls l1).runCalls l2 := by
  induction l1 generalizing c with
  | nil => rfl
  | cons a l1 ih =>
    obtain ⟨env, call⟩ := a
    rw [List.cons_append, ReplicaClient.runCalls, ReplicaClient.runCalls, ih]

/-- A run of `SendMessage` calls on a runtime that is not ready and not
stopped leaves the runtime as it was. -/
theorem ReplicaClient.runCalls_silent
    (silent : List (Env × String × String × List UInt8 × Bool)) (c : ReplicaClient)
    (hs : c.stopCh = false) (hr : c.ready = false) :
    c.runCalls (silent.map sendCall) = c := by
  induction silent with
  | nil => rfl
  | cons p silent ih =>
    rw [List.map_cons, sendCall, ReplicaClient.runCalls, ReplicaClient.exec]
    have h : c.SendMessage p.1 p.2.1 p.2.2.1 p.2.2.2.1 p.2.2.2.2 = (none, c) := by
      simp [ReplicaClient.SendMessage, ReplicaClient.IsReady, hs, hr]
    rw [h]
    exact ih

/-- C12. On a runtime that is ready and not stopped, `SendMessage` hands
exactly one request to the controller client (the address being well formed):
the relay of a message with the given type, payload and intercept flag, from
the configured replica id to `to`, with the identifier made of the replica
id, `to` and the counter value at the call; the counter takes its next value. So on a
new runtime of replica r1, made ready, two `SendMessage` calls to r2 relay
the identifiers r1_r2_0 and r1_r2_1 in that order, also when `SendMessage`
calls are made while not ready in between. -/
theorem C12_send_ready_relays_with_id :
    (∀ (env : Env) (c : ReplicaClient) (t to_ : String) (msg : List UInt8) (intercept : Bool),
        c.stopCh = false → c.ready = true →
        env.NewRequest ("http://" ++ c.config.NetrixAddr ++ "/message") = none →
        (c.SendMessage env t to_ msg intercept).2.masterClient
            = c.masterClient ++ [relayRequest c.config t to_ msg intercept c.counter.counter]
        ∧ (c.SendMessage env t to_ msg intercept).2.counter.counter
            = wrapInt (c.counter.counter + 1))
    ∧ (∀ (config : Config) (e1 e2 : Env)
        (silent : List (Env × String × String × List UInt8 × Bool))
        (t1 t2 : String) (msg1 msg2 : List UInt8) (i1 i2 : Bool),
        config.ReplicaID = "r1" →
        e1.NewRequest ("http://" ++ config.NetrixAddr ++ "/message") = none →
        e2.NewRequest ("http://" ++ config.NetrixAddr ++ "/message") = none →
        ((ReplicaClient.new config).runCalls
            ([(e1, Call.Ready), (e1, Call.SendMessage t1 "r2" msg1 i1), (e1, Call.NotReady)]
              ++ silent.map sendCall
              ++ [(e2, Call.Ready), (e2, Call.SendMessage t2 "r2" msg2 i2)])).masterClient
          = [{ addr := "http://" ++ config.NetrixAddr ++ "/message"
               body := .Message (some
                 { Type_ := t1, From := "r1", To := "r2", ID := "r1_r2_0", Data := msg1,
                   Intercept := i1 }) },
             { addr := "http://" ++ config.NetrixAddr ++ "/message"
               body := .Message (some
                 { Type_ := t2, From := "r1", To := "r2", ID := "r1_r2_1", Data := msg2,
                   Intercept := i2 }) }]) := by
  constructor
  · intro env c t to_ msg intercept hs hr hreq
    obtain ⟨g, hg⟩ := ReplicaClient.SendMessage_ready env c t to_ msg intercept hs hr hreq
    rw [hg]
    exact ⟨rfl, rfl⟩
  · intro config e1 e2 silent t1 t2 msg1 msg2 i1 i2 hid hreq1 hreq2
    rw [ReplicaClient.runCalls_append, ReplicaClient.runCalls_append]
    simp only [ReplicaClient.runCalls, ReplicaClient.exec]
    obtain ⟨g1, hg1⟩ := ReplicaClient.SendMessage_ready e1 (ReplicaClient.new config).Ready
      t1 "r2" msg1 i1 rfl rfl hreq1
    rw [hg1]
    rw [ReplicaClient.runCalls_silent silent _ rfl rfl]
    obtain ⟨g2, hg2⟩ := ReplicaClient.SendMessage_ready e2
      (ReplicaClient.Ready (ReplicaClient.NotReady
        { (ReplicaClient.new config).Ready with
          masterClient := (ReplicaClient.new config).Ready.masterClient ++
            [relayRequest (ReplicaClient.new config).Ready.config t1 "r2" msg1 i1
              (ReplicaClient.new config).Ready.counter.counter]
          counter := { counter := wrapInt ((ReplicaClient.new config).Ready.counter.counter + 1) }
          goroutines := g1 }))
      t2 "r2" msg2 i2 rfl rfl hreq2
    rw [hg2]
    simp only [ReplicaClient.Ready, ReplicaClient.NotReady, ReplicaClient.new, NewCounter,
      relayRequest, hid, List.nil_append, List.cons_append]
    rfl

/-- C12, on the runtime of replica r1: two sends to r2 while ready, with a
send made while not ready in between, relay r1_r2_0 and then r1_r2_1. -/
theorem C12_send_ready_relays_with_id_witness :
    exClient.config.ReplicaID = "r1"
    ∧ exEnv.NewRequest ("http://" ++ exClient.config.NetrixAddr ++ "/message") = none
    ∧ (exClient.runCalls
        [(exEnv, Call.Ready), (exEnv, Call.SendMessage "vote" "r2" [1] true),
         (exEnv, Call.NotReady), (exEnv, Call.SendMessage "ping" "r3" [] false),
         (exEnv, Call.Ready), (exEnv, Call.SendMessage "vote" "r2" [2] true)]).masterClient
      = [{ addr := "http://ctrl:9000/message"
           body := .Message (some
             { Type_ := "vote", From := "r1", To := "r2", ID := "r1_r2_0", Data := [1],
               Intercept := true }) },
         { addr := "http://ctrl:9000/message"
           body := .Message (some
             { Type_ := "vote", From := "r1", To := "r2", ID := "r1_r2_1", Data := [2],
               Intercept := true }) }] :=
  ⟨rfl, rfl,
   C12_send_ready_relays_with_id.2 exClient.config exEnv exEnv
     [(exEnv, "ping", "r3", [], false)] "vote" "vote" [1] [2] true true rfl rfl rfl⟩

/-! ## The directive dispatcher -/

/-- A POST request on `/directive` passes the method check. -/
theorem ReplicaClient.serveDirective_post (env : Env) (c : ReplicaClient)
    (body : Option directiveMessage) :
    c.serveDirective env { Method := "POST", body := body }
      = c.handleDirective env { Method := "POST", body := body } := by
  simp [ReplicaClient.serveDirective, wrapHandler, postRequest]

/-- The switch on the action START. -/
theorem ReplicaClient.dispatch_start (env : Env) (c : ReplicaClient) :
    c.dispatch env startAction
      = (env.handlerStart,
          { c.Ready with handlerCalls := c.handlerCalls ++ [HandlerCall.Start true] }) := by
  simp [ReplicaClient.dispatch, ReplicaClient.Ready, ReplicaClient.IsReady]

/-- The switch on the action STOP. -/
theorem ReplicaClient.dispatch_stop (env : Env) (c : ReplicaClient) :
    c.dispatch env stopAction
      = (env.handlerStop,
          { c.unsetReady with handlerCalls := c.handlerCalls ++ [HandlerCall.Stop false] }) := by
  simp [ReplicaClient.dispatch, ReplicaClient.unsetReady, ReplicaClient.IsReady, startAction,
    stopAction]

/-- The switch on the action RESTART. -/
theorem ReplicaClient.dispatch_restart (env : Env) (c : ReplicaClient) :
    c.dispatch env restartAction
      = (env.handlerRestart,
          ReplicaClient.Ready
            { c.unsetReady with
              handlerCalls := c.handlerCalls ++ [HandlerCall.Restart false] }) := by
  simp [ReplicaClient.dispatch, ReplicaClient.unsetReady, ReplicaClient.IsReady, startAction,
    stopAction, restartAction]

/-- The switch on the action ISREADY. -/
theorem ReplicaClient.dispatch_isReady (env : Env) (c : ReplicaClient) :
    c.dispatch env isReadyAction
      = (if c.IsReady then none else some "replica not ready", c) := by
  cases h : c.IsReady <;>
    simp [ReplicaClient.dispatch, startAction, stopAction, restartAction, isReadyAction, h]

/-- The switch on an action that is none of the four. -/
theorem ReplicaClient.dispatch_other (env : Env) (c : ReplicaClient) (action : String)
    (h1 : action ≠ startAction) (h2 : action ≠ stopAction) (h3 : action ≠ restartAction)
    (h4 : action ≠ isReadyAction) : c.dispatch env action = (none, c) := by
  simp [ReplicaClient.dispatch, h1, h2, h3, h4]

/-- The reply of `handleDirective` to a decoded body, from the result of the
switch. -/
theorem ReplicaClient.handleDirective_some (env : Env) (c : ReplicaClient) (m : String)
    (req : directiveMessage) :
    c.handleDirective env { Method := m, body := some req }
      = (if (c.dispatch env req.Action).1.isSome then { status := 500, body := "Not Ok!" }
         else { status := 200, body := "Ok" },
         (c.dispatch env req.Action).2) := by
  unfold ReplicaClient.handleDirective
  simp only
  split
  · next e c1 h => rw [h]; rfl
  · next c1 h => rw [h]; rfl

/-- C13. Processing the directive STOP, on every runtime (ready or not),
leaves `IsReady()` false and invokes the handler's `Stop` once, with the
readiness flag already false, and no other handler operation, whatever `Stop`
returns; the reply is a failure exactly when `Stop` returned an error. -/
theorem C13_stop_directive_unsets_ready (env : Env) (c : ReplicaClient) :
    (c.serveDirective env { Method := "POST", body := some { Action := "STOP" } }).2.IsReady
        = false
    ∧ (c.serveDirective env { Method := "POST", body := some { Action := "STOP" } }).2.handlerCalls
        = c.handlerCalls ++ [HandlerCall.Stop false]
    ∧ (c.serveDirective env { Method := "POST", body := some { Action := "STOP" } }).1
        = (if env.handlerStop.isSome then { status := 500, body := "Not Ok!" }
           else { status := 200, body := "Ok" }) := by
  rw [ReplicaClient.serveDirective_post, ReplicaClient.handleDirective_some]
  have h := ReplicaClient.dispatch_stop env c
  simp only [stopAction] at h
  rw [h]
  exact ⟨rfl, rfl, rfl⟩

/-- C14, as stated, fails on the runtime of replica r1 when it is running and
ready: the directive STOP spawns no task, whereas `NotReady()` spawns the
registration with ready = false, so the runtime after the directive is not
the one `NotReady()` followed by the handler's `Stop` gives; and the
directive RESTART spawns the registration with ready = true only. -/
theorem C14_stop_directive_differs_from_NotReady :
    (exReady.serveDirective exEnv
        { Method := "POST", body := some { Action := "STOP" } }).2.goroutines
      = exReady.goroutines
    ∧ exReady.NotReady.goroutines
      = exReady.goroutines ++ [Goroutine.sendMasterMessage (exReady.registration false)]
    ∧ (exReady.serveDirective exEnv
        { Method := "POST", body := some { Action := "STOP" } }).2
      ≠ { exReady.NotReady with
          handlerCalls := exReady.NotReady.handlerCalls ++ [HandlerCall.Stop false] }
    ∧ (exReady.serveDirective exEnv
        { Method := "POST", body := some { Action := "RESTART" } }).2.goroutines
      = exReady.goroutines ++ [Goroutine.sendMasterMessage (exReady.registration true)] := by
  refine ⟨rfl, rfl, ?_, rfl⟩
  intro h
  have hg := congrArg (fun c => c.goroutines.length) h
  revert hg
  decide

/-- C14, amended. The not-ready step of the directives STOP and RESTART is
`unsetReady()`: it sets the readiness flag to false and changes nothing else,
so it spawns no task and hands no request to the controller client, whereas
`NotReady()` is that step followed by the spawn of the registration with
ready = false. After STOP the tasks and requests are those of before; after
RESTART the only task added is the registration with ready = true of the
final `Ready()`. -/
theorem C14_directives_unset_flag_only (env : Env) (c : ReplicaClient) :
    (c.serveDirective env { Method := "POST", body := some { Action := "STOP" } }).2
        = { c.unsetReady with handlerCalls := c.handlerCalls ++ [HandlerCall.Stop false] }
    ∧ (c.serveDirective env { Method := "POST", body := some { Action := "RESTART" } }).2
        = ReplicaClient.Ready
            { c.unsetReady with
              handlerCalls := c.handlerCalls ++ [HandlerCall.Restart false] }
    ∧ c.unsetReady = { c with ready := false }
    ∧ c.NotReady
        = { c.unsetReady with
            goroutines := c.goroutines ++ [Goroutine.sendMasterMessage (c.registration false)] }
    ∧ (c.serveDirective env
          { Method := "POST", body := some { Action := "STOP" } }).2.goroutines = c.goroutines
    ∧ (c.serveDirective env
          { Method := "POST", body := some { Action := "STOP" } }).2.masterClient = c.masterClient
    ∧ (c.serveDirective env
          { Method := "POST", body := some { Action := "RESTART" } }).2.goroutines
        = c.goroutines ++ [Goroutine.sendMasterMessage (c.registration true)]
    ∧ (c.serveDirective env
          { Method := "POST", body := some { Action := "RESTART" } }).2.masterClient
        = c.masterClient := by
  have hs := ReplicaClient.dispatch_stop env c
  have hr := ReplicaClient.dispatch_restart env c
  simp only [stopAction] at hs
  simp only [restartAction] at hr
  rw [ReplicaClient.serveDirective_post, ReplicaClient.handleDirective_some,
    ReplicaClient.serveDirective_post, ReplicaClient.handleDirective_some]
  rw [hs, hr]
  exact ⟨rfl, rfl, rfl, rfl, rfl, rfl, rfl, rfl⟩

/-- The newest spawned task, when it is a `sendMasterMessage`, runs as that
call on the runtime without the task. -/
theorem ReplicaClient.runGoroutine_newest (env : Env) (c : ReplicaClient)
    (g : List Goroutine) (msg : masterRequest) :
    ReplicaClient.runGoroutine env
        { c with goroutines := g ++ [Goroutine.sendMasterMessage msg] } g.length
      = (ReplicaClient.sendMasterMessage env { c with goroutines := g } msg).2 := by
  simp [ReplicaClient.runGoroutine, eraseIdx_length_concat]

/-- C15. Processing the directive RESTART, on every runtime and whatever the
handler's `Restart` returns, sets the readiness flag to false, invokes
`Restart` once, while the flag is false, and no other handler operation, and
then performs `Ready()`: afterwards `IsReady()` is true and one task has been
spawned, the registration of the replica with ready = true, which hands that
registration to the controller client when it runs (the metadata being
encodable and the address well formed). -/
theorem C15_restart_directive_ends_ready :
    (∀ (env : Env) (c : ReplicaClient),
      (c.serveDirective env { Method := "POST", body := some { Action := "RESTART" } }).2
          = ReplicaClient.Ready
              { c.unsetReady with
                handlerCalls := c.handlerCalls ++ [HandlerCall.Restart false] }
      ∧ (c.serveDirective env
            { Method := "POST", body := some { Action := "RESTART" } }).2.IsReady = true
      ∧ (c.serveDirective env
            { Method := "POST", body := some { Action := "RESTART" } }).2.handlerCalls
          = c.handlerCalls ++ [HandlerCall.Restart false]
      ∧ (c.serveDirective env
            { Method := "POST", body := some { Action := "RESTART" } }).2.goroutines
          = c.goroutines ++
            [Goroutine.sendMasterMessage
              { Type_ := "RegisterReplica"
                Replica := some
                  { ID := c.config.ReplicaID, Info := c.config.Info,
                    Addr := c.config.ClientAdvAddr, Ready := true } }]
      ∧ (c.serveDirective env
            { Method := "POST", body := some { Action := "RESTART" } }).1
          = (if env.handlerRestart.isSome then { status := 500, body := "Not Ok!" }
             else { status := 200, body := "Ok" }))
    ∧ (∀ (env env1 : Env) (c : ReplicaClient),
        marshalMapErr c.config.Info = none →
        env1.NewRequest ("http://" ++ c.config.NetrixAddr ++ "/replica") = none →
        (ReplicaClient.runGoroutine env1
            (c.serveDirective env
              { Method := "POST", body := some { Action := "RESTART" } }).2
            c.goroutines.length).masterClient
          = c.masterClient ++ [registrationRequest c.config true]) := by
  have hd : ∀ (env : Env) (c : ReplicaClient),
      c.serveDirective env { Method := "POST", body := some { Action := "RESTART" } }
        = (if env.handlerRestart.isSome then { status := 500, body := "Not Ok!" }
           else { status := 200, body := "Ok" },
           ReplicaClient.Ready
            { c.unsetReady with
              handlerCalls := c.handlerCalls ++ [HandlerCall.Restart false] }) := by
    intro env c
    have hr := ReplicaClient.dispatch_restart env c
    simp only [restartAction] at hr
    rw [ReplicaClient.serveDirective_post, ReplicaClient.handleDirective_some, hr]
  constructor
  · intro env c
    rw [hd env c]
    exact ⟨rfl, rfl, rfl, rfl, rfl⟩
  · intro env env1 c hinfo hreq
    rw [hd env c]
    have hrun := ReplicaClient.runGoroutine_newest env1
      { c with ready := true, handlerCalls := c.handlerCalls ++ [HandlerCall.Restart false] }
      c.goroutines (c.registration true)
    have hlog := ReplicaClient.sendMasterMessage_log env1
      { c with ready := true, handlerCalls := c.handlerCalls ++ [HandlerCall.Restart false] }
      (c.registration true) hinfo hreq
    have hstate : ReplicaClient.Ready
        { c.unsetReady with handlerCalls := c.handlerCalls ++ [HandlerCall.Restart false] }
        = { c with ready := true,
                   handlerCalls := c.handlerCalls ++ [HandlerCall.Restart false],
                   goroutines := c.goroutines
                     ++ [Goroutine.sendMasterMessage (c.registration true)] } := rfl
    simp only
    rw [hstate]
    simp only at hrun hlog
    rw [hrun, hlog]
    rfl

/-- C15, on the runtime of replica r1, which is ready, with a handler whose
`Restart` fails: the reply is a failure, `Restart` was invoked with the flag
false, and the runtime is ready. -/
theorem C15_restart_directive_ends_ready_witness :
    marshalMapErr exReady.config.Info = none
    ∧ exEnv.NewRequest ("http://" ++ exReady.config.NetrixAddr ++ "/replica") = none
    ∧ exReady.IsReady = true
    ∧ (exReady.serveDirective { exEnv with handlerRestart := some "boom" }
        { Method := "POST", body := some { Action := "RESTART" } }).1.status = 500
    ∧ (exReady.serveDirective { exEnv with handlerRestart := some "boom" }
        { Method := "POST", body := some { Action := "RESTART" } }).2.handlerCalls
      = [HandlerCall.Restart false]
    ∧ (exReady.serveDirective { exEnv with handlerRestart := some "boom" }
        { Method := "POST", body := some { Action := "RESTART" } }).2.IsReady = true
    ∧ (ReplicaClient.runGoroutine exEnv
        (exReady.serveDirective { exEnv with handlerRestart := some "boom" }
          { Method := "POST", body := some { Action := "RESTART" } }).2
        exReady.goroutines.length).masterClient
      = exReady.masterClient ++ [registrationRequest exReady.config true] :=
  ⟨rfl, rfl, rfl, rfl, rfl, rfl,
   C15_restart_directive_ends_ready.2 { exEnv with handlerRestart := some "boom" } exEnv exReady
     rfl rfl⟩

/-- C16. For a well-formed directive with action START, STOP or RESTART the
reply has status 500 exactly when the handler's operation of that name
returned an error, and status 200 otherwise; for ISREADY the reply has status
500 exactly when `IsReady()` is false, and the runtime, its readiness flag
and the list of handler operations invoked included, is unchanged. -/
theorem C16_directive_failure_iff_error (env : Env) (c : ReplicaClient) :
    ((c.serveDirective env { Method := "POST", body := some { Action := "START" } }).1.status
        = 500 ↔ env.handlerStart ≠ none)
    ∧ ((c.serveDirective env { Method := "POST", body := some { Action := "START" } }).1.status
        = 200 ↔ env.handlerStart = none)
    ∧ ((c.serveDirective env { Method := "POST", body := some { Action := "STOP" } }).1.status
        = 500 ↔ env.handlerStop ≠ none)
    ∧ ((c.serveDirective env { Method := "POST", body := some { Action := "STOP" } }).1.status
        = 200 ↔ env.handlerStop = none)
    ∧ ((c.serveDirective env { Method := "POST", body := some { Action := "RESTART" } }).1.status
        = 500 ↔ env.handlerRestart ≠ none)
    ∧ ((c.serveDirective env { Method := "POST", body := some { Action := "RESTART" } }).1.status
        = 200 ↔ env.handlerRestart = none)
    ∧ ((c.serveDirective env { Method := "POST", body := some { Action := "ISREADY" } }).1.status
        = 500 ↔ c.IsReady = false)
    ∧ ((c.serveDirective env { Method := "POST", body := some { Action := "ISREADY" } }).1.status
        = 200 ↔ c.IsReady = true)
    ∧ (c.serveDirective env { Method := "POST", body := some { Action := "ISREADY" } }).2 = c := by
  have h1 := ReplicaClient.dispatch_start env c
  have h2 := ReplicaClient.dispatch_stop env c
  have h3 := ReplicaClient.dispatch_restart env c
  have h4 := ReplicaClient.dispatch_isReady env c
  simp only [startAction] at h1
  simp only [stopAction] at h2
  simp only [restartAction] at h3
  simp only [isReadyAction] at h4
  rw [ReplicaClient.serveDirective_post, ReplicaClient.handleDirective_some,
    ReplicaClient.serveDirective_post, ReplicaClient.handleDirective_some,
    ReplicaClient.serveDirective_post, ReplicaClient.handleDirective_some,
    ReplicaClient.serveDirective_post, ReplicaClient.handleDirective_some]
  rw [h1, h2, h3, h4]
  refine ⟨?_, ?_, ?_, ?_, ?_, ?_, ?_, ?_, rfl⟩
  · cases env.handlerStart <;> simp
  · cases env.handlerStart <;> simp
  · cases env.handlerStop <;> simp
  · cases env.handlerStop <;> simp
  · cases env.handlerRestart <;> simp
  · cases env.handlerRestart <;> simp
  · cases c.IsReady <;> simp
  · cases c.IsReady <;> simp

/-- C17. For every action that is none of START, STOP, RESTART and ISREADY,
processing the directive returns the reply of success and leaves the
runtime, its readiness flag and the list of handler operations invoked
included, unchanged. -/
theorem C17_unknown_action_is_success (env : Env) (c : ReplicaClient) (action : String)
    (h1 : action ≠ "START") (h2 : action ≠ "STOP") (h3 : action ≠ "RESTART")
    (h4 : action ≠ "ISREADY") :
    c.serveDirective env { Method := "POST", body := some { Action := action } }
        = ({ status := 200, body := "Ok" }, c)
    ∧ (c.serveDirective env
        { Method := "POST", body := some { Action := action } }).2.IsReady = c.IsReady
    ∧ (c.serveDirective env
        { Method := "POST", body := some { Action := action } }).2.handlerCalls
        = c.handlerCalls := by
  have h : c.serveDirective env { Method := "POST", body := some { Action := action } }
      = ({ status := 200, body := "Ok" }, c) := by
    rw [ReplicaClient.serveDirective_post, ReplicaClient.handleDirective_some,
      ReplicaClient.dispatch_other env c action h1 h2 h3 h4]
    rfl
  rw [h]
  exact ⟨rfl, rfl, rfl⟩

/-- C17, at the lower-case action stop on the ready runtime of replica r1. -/
theorem C17_unknown_action_is_success_witness :
    "stop" ≠ "START" ∧ "stop" ≠ "STOP" ∧ "stop" ≠ "RESTART" ∧ "stop" ≠ "ISREADY"
    ∧ (exReady.serveDirective exEnv
        { Method := "POST", body := some { Action := "stop" } }).1
        = { status := 200, body := "Ok" }
    ∧ (exReady.serveDirective exEnv
        { Method := "POST", body := some { Action := "stop" } }).2.IsReady = true :=
  have h := C17_unknown_action_is_success exEnv exReady "stop" (by decide) (by decide)
    (by decide) (by decide)
  ⟨by decide, by decide, by decide, by decide, congrArg Prod.fst h.1, h.2.1⟩

/-! ## Configuration -/

/-- C18. `validateConfig` returns an error exactly when the replica id, the
controller address or the listen address is empty: `ErrNoReplicaID` when the
replica id is empty, otherwise `ErrNoNetrixAddr` when the controller address
is empty, otherwise `ErrNoClientServerAddr`; `NewReplicaClient` returns that
error and no runtime, and the config is unchanged. When there is no error,
the advertised address is the one given if it is not empty and the listen
address otherwise, every other field is unchanged, and `NewReplicaClient`
returns the runtime built from that config. -/
theorem C18_validate_config :
    (∀ c : Config, (validateConfig c).1 ≠ none
        ↔ (c.ReplicaID = "" ∨ c.NetrixAddr = "" ∨ c.ClientServerAddr = ""))
    ∧ (∀ c : Config, c.ReplicaID = "" → (validateConfig c).1 = some ErrNoReplicaID)
    ∧ (∀ c : Config, c.ReplicaID ≠ "" → c.NetrixAddr = "" →
        (validateConfig c).1 = some ErrNoNetrixAddr)
    ∧ (∀ c : Config, c.ReplicaID ≠ "" → c.NetrixAddr ≠ "" → c.ClientServerAddr = "" →
        (validateConfig c).1 = some ErrNoClientServerAddr)
    ∧ (∀ (c : Config) (e : String), (validateConfig c).1 = some e →
        (validateConfig c).2 = c ∧ NewReplicaClient c = (.error e, c))
    ∧ (∀ c : Config, (validateConfig c).1 = none →
        (validateConfig c).2
          = { c with ClientAdvAddr :=
                if c.ClientAdvAddr = "" then c.ClientServerAddr else c.ClientAdvAddr }
        ∧ NewReplicaClient c
          = (.ok (ReplicaClient.new (validateConfig c).2), (validateConfig c).2)) := by
  refine ⟨?_, ?_, ?_, ?_, ?_, ?_⟩
  · intro c
    unfold validateConfig
    by_cases h1 : c.ReplicaID = ""
    · simp [h1]
    · by_cases h2 : c.NetrixAddr = ""
      · simp [h1, h2]
      · by_cases h3 : c.ClientServerAddr = ""
        · simp [h1, h2, h3]
        · by_cases h4 : c.ClientAdvAddr = "" <;> simp [h1, h2, h3, h4]
  · intro c h1
    simp [validateConfig, h1]
  · intro c h1 h2
    simp [validateConfig, h1, h2]
  · intro c h1 h2 h3
    simp [validateConfig, h1, h2, h3]
  · intro c e h
    have hc : (validateConfig c).2 = c := by
      unfold validateConfig at h ⊢
      by_cases h1 : c.ReplicaID = ""
      · simp [h1]
      · by_cases h2 : c.NetrixAddr = ""
        · simp [h1, h2]
        · by_cases h3 : c.ClientServerAddr = ""
          · simp [h1, h2, h3]
          · by_cases h4 : c.ClientAdvAddr = "" <;> simp [h1, h2, h3, h4] at h
    refine ⟨hc, ?_⟩
    unfold NewReplicaClient
    rcases hv : validateConfig c with ⟨e1, c1⟩
    rw [hv] at h hc
    simp only at h hc
    subst h hc
    rfl
  · intro c h
    have hc : (validateConfig c).2
        = { c with ClientAdvAddr :=
              if c.ClientAdvAddr = "" then c.ClientServerAddr else c.ClientAdvAddr } := by
      unfold validateConfig at h ⊢
      by_cases h1 : c.ReplicaID = ""
      · simp [h1] at h
      · by_cases h2 : c.NetrixAddr = ""
        · simp [h1, h2] at h
        · by_cases h3 : c.ClientServerAddr = ""
          · simp [h1, h2, h3] at h
          · by_cases h4 : c.ClientAdvAddr = "" <;> simp [h1, h2, h3, h4]
    refine ⟨hc, ?_⟩
    unfold NewReplicaClient
    rcases hv : validateConfig c with ⟨e1, c1⟩
    rw [hv] at h
    simp only at h
    subst h
    rfl

/-- C18, at the config of replica r1, whose advertised address is empty, and
at the same config without its controller address. -/
theorem C18_validate_config_witness :
    (validateConfig exConfig).1 = none
    ∧ (validateConfig exConfig).2.ClientAdvAddr = ":8001"
    ∧ NewReplicaClient exConfig = (.ok exClient, exClient.config)
    ∧ ({ exConfig with NetrixAddr := "" } : Config).ReplicaID ≠ ""
    ∧ ({ exConfig with NetrixAddr := "" } : Config).NetrixAddr = ""
    ∧ (validateConfig { exConfig with NetrixAddr := "" }).1 = some ErrNoNetrixAddr :=
  ⟨rfl, rfl, (C18_validate_config.2.2.2.2.2 exConfig rfl).2, by decide, rfl,
   C18_validate_config.2.2.1 { exConfig with NetrixAddr := "" } (by decide) rfl⟩

/-! ## Starting the runtime -/

/-- On a runtime that is not running, a `Start()` during which the listener
reports no bind failure returns nil, sets the started flag and spawns the
listener; it does not write the readiness flag; and it hands the controller
client one request, the registration with ready = false, when the metadata
can be encoded and the address is well formed. -/
theorem ReplicaClient.Start_not_running (env : Env) (c : ReplicaClient)
    (hrun : c.IsRunning = false) (hl : env.listenErr = none) :
    (c.Start env).1 = none
    ∧ (c.Start env).2.IsRunning = true
    ∧ (c.Start env).2.IsReady = c.IsReady
    ∧ (c.Start env).2.goroutines = c.goroutines ++ [Goroutine.ListenAndServe]
    ∧ (marshalMapErr c.config.Info = none →
        env.NewRequest ("http://" ++ c.config.NetrixAddr ++ "/replica") = none →
        (c.Start env).2.masterClient = c.masterClient ++ [registrationRequest c.config false]) := by
  obtain ⟨l, hframe⟩ := ReplicaClient.sendMasterMessage_frame env c (c.registration false)
  have hs : c.Start env
      = (none, { c with masterClient := l, started := true,
                        goroutines := c.goroutines ++ [Goroutine.ListenAndServe] }) := by
    unfold ReplicaClient.Start
    simp only [hrun, hl, Bool.false_eq_true, if_false, hframe]
  refine ⟨by rw [hs], by rw [hs]; rfl, by rw [hs]; rfl, by rw [hs], ?_⟩
  intro hinfo hreq
  have hlog := ReplicaClient.sendMasterMessage_log env c (c.registration false) hinfo hreq
  rw [hframe] at hlog
  have hl2 := congrArg (fun x => x.masterClient) hlog
  simp only at hl2
  rw [hs, hl2]
  rfl

/-- C19. On the runtime just built for replica r1, which is neither running
nor ready, `Start()` with a listener that reports no failure returns nil and
leaves the runtime running and not ready, with one registration, ready =
false, handed to the controller client. When `Ready()` is called before that
`Start()`, the runtime is still not running, `Start()` returns nil and hands
the controller client the same registration with ready = false, and
afterwards `IsRunning()` is true and `IsReady()` is true: the runtime is not
in the state Running/NotReady that it has just registered. -/
theorem C19_start_leaves_ready_set :
    exClient.IsRunning = false
    ∧ exEnv.listenErr = none
    ∧ (exClient.Start exEnv).1 = none
    ∧ (exClient.Start exEnv).2.IsRunning = true
    ∧ (exClient.Start exEnv).2.IsReady = false
    ∧ (exClient.Start exEnv).2.masterClient = [registrationRequest exClient.config false]
    ∧ exClient.Ready.IsRunning = false
    ∧ (exClient.Ready.Start exEnv).1 = none
    ∧ (exClient.Ready.Start exEnv).2.IsRunning = true
    ∧ (exClient.Ready.Start exEnv).2.masterClient
        = [registrationRequest exClient.config false]
    ∧ (exClient.Ready.Start exEnv).2.IsReady = true :=
  ⟨rfl, rfl, rfl, rfl, rfl, rfl, rfl, rfl, rfl, rfl, rfl⟩

/-! ## Concurrent calls of `FireTimeout` -/

/-- One call of `FireTimeout` that takes its three steps with no other call
in between does what `timer.FireTimeout` does. -/
theorem timer.interleave_single (t : timer) (key : String) :
    timer.interleave t [FireThread.call key] [0, 0, 0]
      = (t.FireTimeout key, [FireThread.returned]) := by
  rcases h : t.timeouts key with _ | i
  · simp [timer.interleave, timer.fireStep, timer.FireTimeout, h]
  · simp [timer.interleave, timer.fireStep, timer.FireTimeout, h]

/-- C20. On the registry that holds the key election once, two concurrent
calls `FireTimeout("election")` whose lookups both run before either
deletion both find the key: both calls return, two sends of the timeout are
spawned, and both put it on the delivery channel. Run one after the other,
the same two calls spawn one send. -/
theorem C20_concurrent_fire_delivers_twice :
    exTimer.timeouts "election" = some exTimeout
    ∧ exTimer.senders = [] ∧ exTimer.outChan = []
    ∧ (timer.interleave exTimer [FireThread.call "election", FireThread.call "election"]
        [0, 1, 0, 1, 0, 1]).2 = [FireThread.returned, FireThread.returned]
    ∧ (timer.interleave exTimer [FireThread.call "election", FireThread.call "election"]
        [0, 1, 0, 1, 0, 1]).1.senders = [exTimeout, exTimeout]
    ∧ (((timer.interleave exTimer [FireThread.call "election", FireThread.call "election"]
        [0, 1, 0, 1, 0, 1]).1.send 0).send 0).outChan = [exTimeout, exTimeout]
    ∧ (timer.interleave exTimer [FireThread.call "election", FireThread.call "election"]
        [0, 0, 0, 1, 1, 1]).2 = [FireThread.returned, FireThread.returned]
    ∧ (timer.interleave exTimer [FireThread.call "election", FireThread.call "election"]
        [0, 0, 0, 1, 1, 1]).1.senders = [exTimeout] :=
  ⟨rfl, rfl, rfl, rfl, rfl, rfl, rfl, rfl⟩

end Netrix
